import Mathlib

set_option maxHeartbeats 1000000

/-! # Met-Roulette: verification of the random-artwork finders

Shallow embedding of the candidate-selection logic of the three tab screens
(`met.tsx`, `aic.tsx`, `cma.tsx`): the per-catalog usability filters, the
bounded random-retrieval loops, the cached identifier-list loader and the
image-save path.  Network transports, the random source and the cancellation
flag are explicit parameters; every `await` boundary is counted by a clock `k`
so that cooperative cancellation (a monotone flag read at each check site in
the code) can be stated and proved. -/

/-- JS truthiness of an optional string (`undefined`, `null` and `""` are falsy). -/
def truthy : Option String → Bool
  | some s => !(s == "")
  | none => false

/-- JS `a || b` on optional strings: `b` when `a` is falsy. -/
def jsOr (a b : Option String) : Option String :=
  if truthy a then a else b

/-- JS `a || d` where `d` is a non-empty string literal default. -/
def jsOrD (a : Option String) (d : String) : String :=
  match a with
  | some s => if s == "" then d else s
  | none => d

/-- The normalized artwork committed to UI state (the `setArt` payload);
all three screens use this exact field set. -/
structure Artwork where
  id : Nat
  title : String
  artist : String
  date : String
  img : String
  url : String
  department : Option String
  creditLine : Option String
deriving DecidableEq, Repr, Inhabited

/-- Caller-observable effects of a screen: network round-trips, the state
setters of the picker effects, and the effects of the save path. -/
inductive Ev where
  | request (n : Nat)
  | setArt (a : Artwork)
  | setArtNull
  | setLoading (b : Bool)
  | setError (msg : String)
  | download (url : String)
  | webDownload (uri name : String)
  | permissionRequest
  | saveToLibrary (uri : String)
  | alert (title msg : String)
deriving DecidableEq, Repr

/-- Events that mutate the `art`/`error`/`loading` state of a screen. -/
def Ev.isMut : Ev → Bool
  | .setArt _ => true
  | .setArtNull => true
  | .setLoading _ => true
  | .setError _ => true
  | _ => false

/-- Network round-trip events. -/
def Ev.isReq : Ev → Bool
  | .request _ => true
  | _ => false

/-- Number of network round-trips recorded in a timed trace. -/
def requestCount (tr : List (Nat × Ev)) : Nat :=
  tr.countP fun te => te.2.isReq

/-- Terminal outcome of one picker invocation: a committed artwork together
with the source candidate it was normalized from, budget exhaustion, an
exception that escaped to the outer catch, or a cancelled (silent) end. -/
inductive Outcome (σ : Type) where
  | success (src : σ) (art : Artwork)
  | notFound
  | errored
  | silent
deriving DecidableEq, Repr

/-- The cancellation flag as read after `k` completed awaits: the effect
cleanup has run once `c ≤ k`.  (`c` is the number of awaits this invocation
completes before the flag is set; JS is single-threaded, so the flag cannot
change between two synchronous statements, and it is monotone.) -/
def flagAt (c k : Nat) : Bool := decide (c ≤ k)

/-- met.tsx:166 — the source file carries a double-encoded apostrophe
(U+201A U+00C4 U+00F4), reproduced here byte-for-byte. -/
def metMsg : String :=
  "Couldn\u201a\u00c4\u00f4t find a CC0 image right now. Pull to refresh."

/-- aic.tsx:125 and 130 (the apostrophe is U+2019). -/
def aicMsg : String :=
  "Couldn\u2019t find an AIC image right now. Pull to refresh."

/-- cma.tsx:147 and 152. -/
def cmaMsg : String :=
  "Couldn\u2019t find a CMA image right now. Pull to refresh."

/-- Body of the save-failure alert (aic.tsx:167, cma.tsx:190; the met copy
differs only by the double-encoded apostrophe). -/
def saveFailMsg : String :=
  "Couldn\u2019t save this image. Try again."

/-! ## CMA (cma.tsx) -/

structure CMAWeb where
  url : Option String
  large : Option String
  filename : Option String
deriving DecidableEq, Repr, Inhabited

structure CMAPrint where
  url : Option String
deriving DecidableEq, Repr, Inhabited

structure CMAImages where
  web : Option CMAWeb
  print : Option CMAPrint
deriving DecidableEq, Repr, Inhabited

structure CMACreator where
  description : Option String
  role : Option String
  name : Option String
deriving DecidableEq, Repr, Inhabited

/-- One CMA candidate record (the fields requested in cma.tsx:40-50). -/
structure CMAItem where
  id : Nat
  title : Option String
  creators : Option (List CMACreator)
  creation_date : Option String
  department : Option String
  creditline : Option String
  url : Option String
  images : Option CMAImages
  share_license_status : Option String
deriving DecidableEq, Repr, Inhabited

/-- `it?.images?.web?.url || it?.images?.web?.large || it?.images?.web?.filename
|| it?.images?.print?.url` — the image evidence tested by the CMA filter
(cma.tsx:101-105). -/
def CMAItem.webUrlAny (it : CMAItem) : Option String :=
  jsOr ((it.images.bind CMAImages.web).bind CMAWeb.url)
    (jsOr ((it.images.bind CMAImages.web).bind CMAWeb.large)
      (jsOr ((it.images.bind CMAImages.web).bind CMAWeb.filename)
        ((it.images.bind CMAImages.print).bind CMAPrint.url)))

/-- JS `toLowerCase()` on the licence tag (character-wise lowering; the tags
involved are ASCII). -/
def lowerAscii (s : String) : String := String.mk (s.data.map Char.toLower)

/-- `it?.share_license_status?.toLowerCase?.() === "cc0" || true` (cma.tsx:106-107).
The `|| true` short-circuit makes the client-side licence check vacuous; the
code comment reads "cc0=1 already filters" (the server-side query parameter). -/
def cmaLicenseOk (it : CMAItem) : Bool :=
  (match it.share_license_status with
   | some s => lowerAscii s == "cc0"
   | none => false) || true

/-- The CMA usability filter (cma.tsx:100-109). -/
def cmaFilter (it : CMAItem) : Bool :=
  truthy it.webUrlAny && cmaLicenseOk it

/-- `pick?.images?.web?.url || pick?.images?.web?.large || pick?.images?.print?.url`
(cma.tsx:115-118) — `filename` is not consulted here, unlike in the filter. -/
def CMAItem.imgUrl (it : CMAItem) : Option String :=
  jsOr ((it.images.bind CMAImages.web).bind CMAWeb.url)
    (jsOr ((it.images.bind CMAImages.web).bind CMAWeb.large)
      ((it.images.bind CMAImages.print).bind CMAPrint.url))

/-- CMA `creators` array → artist display string (cma.tsx:124-127):
`creators.map(c => c?.description || c?.role || c?.name).filter(Boolean).join(", ")`
when the array is non-empty, else `"Unknown"`. -/
def cmaArtist (it : CMAItem) : String :=
  match it.creators with
  | some cs =>
    if cs.length ≠ 0 then
      String.intercalate ", "
        (((cs.map fun cr => jsOr cr.description (jsOr cr.role cr.name)).filter truthy).filterMap id)
    else "Unknown"
  | none => "Unknown"

/-- Building the committed artwork from the picked CMA candidate (cma.tsx:129-139). -/
def cmaNormalize (pick : CMAItem) (img : String) : Artwork where
  id := pick.id
  title := jsOrD pick.title "Untitled"
  artist := cmaArtist pick
  date := jsOrD pick.creation_date ""
  img := img
  url := jsOrD pick.url ("https://www.clevelandart.org/art/" ++ toString pick.id)
  department := pick.department
  creditLine := pick.creditline

/-- One attempt's transport and parse result for the CMA screen.  The random
query window built by `cmaRandomUrl` is absorbed into this oracle (the
response is a function of the attempt number). `ok none` models a JSON body
whose `data` is not an array (cma.tsx:97). -/
inductive CMAResp where
  | netFail
  | parseFail
  | ok (data : Option (List CMAItem))
deriving DecidableEq, Repr

def ATTEMPTS : Nat := 12

/-- The retry loop of `pickRandomCMA` (cma.tsx:92-155) as a timed trace of
caller-observable events plus a terminal outcome.  `fuel` is the number of
attempts left (`i` is the attempt counter, `fuel + i = ATTEMPTS`), `k` the
await clock; the whole loop sits inside one `try`, so `netFail`/`parseFail`
jump to the outer catch.  `rand i` (reduced mod the batch length) models
`Math.floor(Math.random() * candidates.length)`. -/
def cmaLoop (responses : Nat → CMAResp) (rand : Nat → Nat) (c : Nat) :
    Nat → Nat → Nat → List (Nat × Ev) × Outcome CMAItem
  | 0, _, k =>
    if flagAt c k then ([], .silent)
    else ([(k, .setError cmaMsg), (k, .setLoading false)], .notFound)
  | fuel + 1, i, k =>
    if flagAt c k then ([], .silent)
    else
      match responses i with
      | .netFail =>
        if flagAt c (k + 1) then ([(k, .request i)], .silent)
        else ([(k, .request i), (k + 1, .setError cmaMsg), (k + 1, .setLoading false)], .errored)
      | .parseFail =>
        if flagAt c (k + 2) then ([(k, .request i)], .silent)
        else ([(k, .request i), (k + 2, .setError cmaMsg), (k + 2, .setLoading false)], .errored)
      | .ok data =>
        let candidates := (data.getD []).filter cmaFilter
        if candidates.isEmpty then
          let r := cmaLoop responses rand c fuel (i + 1) (k + 2)
          ((k, .request i) :: r.1, r.2)
        else
          let pick := candidates.getD (rand i % candidates.length) default
          if truthy pick.imgUrl then
            let art := cmaNormalize pick (pick.imgUrl.getD "")
            if flagAt c (k + 2) then ([(k, .request i)], .silent)
            else ([(k, .request i), (k + 2, .setArt art), (k + 2, .setLoading false)],
              .success pick art)
          else
            let r := cmaLoop responses rand c fuel (i + 1) (k + 2)
            ((k, .request i) :: r.1, r.2)

/-- `pickRandomCMA` (cma.tsx:84-156): unguarded initial state resets, then
the attempt loop. -/
def pickRandomCMA (responses : Nat → CMAResp) (rand : Nat → Nat) (c : Nat) :
    List (Nat × Ev) × Outcome CMAItem :=
  let r := cmaLoop responses rand c ATTEMPTS 0 0
  ((0, .setLoading true) :: (0, .setError "") :: (0, .setArtNull) :: r.1, r.2)


/-! ## AIC (aic.tsx) -/

/-- One AIC candidate record (the fields requested in aic.tsx:37-45). -/
structure AICItem where
  id : Nat
  title : Option String
  artist_display : Option String
  date_display : Option String
  image_id : Option String
  department_title : Option String
  credit_line : Option String
deriving DecidableEq, Repr, Inhabited

/-- The AIC usability filter: `items.filter(it => !!it?.image_id)` (aic.tsx:96). -/
def aicFilter (it : AICItem) : Bool := truthy it.image_id

/-- One attempt's transport and parse result for the AIC screen; the random
`from` offset built by `aicRandomSearchUrl` is absorbed into this oracle.
`ok` carries `json?.data` (None when not an array) and `json?.config?.iiif_url`. -/
inductive AICResp where
  | netFail
  | parseFail
  | ok (data : Option (List AICItem)) (iiif : Option String)
deriving DecidableEq, Repr

/-- `json?.config?.iiif_url || "https://www.artic.edu/iiif/2"`, the IIIF URL
templating (aic.tsx:102-103) and normalization (aic.tsx:106-115).  The filter
guarantees `image_id` is present on every normalized candidate. -/
def aicNormalize (iiif : Option String) (item : AICItem) : Artwork where
  id := item.id
  title := jsOrD item.title "Untitled"
  artist := jsOrD item.artist_display "Unknown"
  date := jsOrD item.date_display ""
  img := jsOrD iiif "https://www.artic.edu/iiif/2" ++ "/" ++ item.image_id.getD ""
           ++ "/full/843,/0/default.jpg"
  url := "https://www.artic.edu/artworks/" ++ toString item.id
  department := item.department_title
  creditLine := item.credit_line

/-- The retry loop of `pickRandomAIC` (aic.tsx:89-133): same shape as the CMA
loop (the whole loop sits inside one `try`), with the AIC filter and no
second image check on the picked candidate. -/
def aicLoop (responses : Nat → AICResp) (rand : Nat → Nat) (c : Nat) :
    Nat → Nat → Nat → List (Nat × Ev) × Outcome AICItem
  | 0, _, k =>
    if flagAt c k then ([], .silent)
    else ([(k, .setError aicMsg), (k, .setLoading false)], .notFound)
  | fuel + 1, i, k =>
    if flagAt c k then ([], .silent)
    else
      match responses i with
      | .netFail =>
        if flagAt c (k + 1) then ([(k, .request i)], .silent)
        else ([(k, .request i), (k + 1, .setError aicMsg), (k + 1, .setLoading false)], .errored)
      | .parseFail =>
        if flagAt c (k + 2) then ([(k, .request i)], .silent)
        else ([(k, .request i), (k + 2, .setError aicMsg), (k + 2, .setLoading false)], .errored)
      | .ok data iiif =>
        let candidates := (data.getD []).filter aicFilter
        if candidates.isEmpty then
          let r := aicLoop responses rand c fuel (i + 1) (k + 2)
          ((k, .request i) :: r.1, r.2)
        else
          let item := candidates.getD (rand i % candidates.length) default
          let art := aicNormalize iiif item
          if flagAt c (k + 2) then ([(k, .request i)], .silent)
          else ([(k, .request i), (k + 2, .setArt art), (k + 2, .setLoading false)],
            .success item art)

/-- `pickRandomAIC` (aic.tsx:81-134): unguarded initial state resets, then the
attempt loop. -/
def pickRandomAIC (responses : Nat → AICResp) (rand : Nat → Nat) (c : Nat) :
    List (Nat × Ev) × Outcome AICItem :=
  let r := aicLoop responses rand c ATTEMPTS 0 0
  ((0, .setLoading true) :: (0, .setError "") :: (0, .setArtNull) :: r.1, r.2)

/-! ## Met (met.tsx) -/

/-- One Met object record (met.tsx:143-154). `isPublicDomain` is the JSON
boolean (absent/undefined is modelled by the record being absent: `ok none`). -/
structure MetRecord where
  isPublicDomain : Bool
  primaryImage : Option String
  primaryImageSmall : Option String
  title : Option String
  artistDisplayName : Option String
  objectDate : Option String
  objectURL : Option String
  department : Option String
  creditLine : Option String
deriving DecidableEq, Repr, Inhabited

/-- The per-object transport and parse result for the Met screen, as a
function of the probed object ID. `ok none` models a JSON body that is
null/undefined. -/
inductive MetResp where
  | netFail
  | parseFail
  | ok (o : Option MetRecord)
deriving DecidableEq, Repr

/-- The Met usability predicate, met.tsx:143:
`o?.isPublicDomain && (o.primaryImageSmall || o.primaryImage)`. -/
def metUsable : Option MetRecord → Bool
  | some ro => ro.isPublicDomain && truthy (jsOr ro.primaryImageSmall ro.primaryImage)
  | none => false

def TRY_LIMIT : Nat := 200

def STRIDE : Nat := 9973

/-- The index probed on attempt `i` (met.tsx:138):
`(startIndex + i * STRIDE) % ids.length`. -/
def metProbeIdx (startIndex i L : Nat) : Nat := (startIndex + i * STRIDE) % L

/-- The first `n` probed indices. -/
def metProbes (startIndex L n : Nat) : List Nat :=
  (List.range n).map fun i => metProbeIdx startIndex i L

/-- Met normalization (met.tsx:145-154). -/
def metNormalize (objectID : Nat) (ro : MetRecord) : Artwork where
  id := objectID
  title := jsOrD ro.title "Untitled"
  artist := jsOrD ro.artistDisplayName "Unknown"
  date := jsOrD ro.objectDate ""
  img := (jsOr ro.primaryImageSmall ro.primaryImage).getD ""
  url := jsOrD ro.objectURL ""
  department := ro.department
  creditLine := ro.creditLine

/-- The probe loop of the Met picker effect (met.tsx:137-162).  Unlike the
batch screens, the `try`/`catch` is inside the loop, so a failed probe
consumes one await (fetch rejection) or two (parse rejection) and continues.
The `request` event carries the probed object ID. -/
def metLoop (ids : List Nat) (fetchObj : Nat → MetResp) (startIndex c : Nat) :
    Nat → Nat → Nat → List (Nat × Ev) × Outcome MetRecord
  | 0, _, k =>
    if flagAt c k then ([], .silent)
    else ([(k, .setLoading false), (k, .setError metMsg)], .notFound)
  | fuel + 1, i, k =>
    if flagAt c k then ([], .silent)
    else
      let objectID := ids.getD (metProbeIdx startIndex i ids.length) 0
      match fetchObj objectID with
      | .netFail =>
        let r := metLoop ids fetchObj startIndex c fuel (i + 1) (k + 1)
        ((k, .request objectID) :: r.1, r.2)
      | .parseFail =>
        let r := metLoop ids fetchObj startIndex c fuel (i + 1) (k + 2)
        ((k, .request objectID) :: r.1, r.2)
      | .ok o =>
        if metUsable o then
          let art := metNormalize objectID (o.getD default)
          if flagAt c (k + 2) then ([(k, .request objectID)], .silent)
          else ([(k, .request objectID), (k + 2, .setArt art), (k + 2, .setLoading false)],
            .success (o.getD default) art)
        else
          let r := metLoop ids fetchObj startIndex c fuel (i + 1) (k + 2)
          ((k, .request objectID) :: r.1, r.2)

/-- The Met picker effect (met.tsx:124-170).  `startIndex` models
`Math.floor(Math.random() * ids.length)` as an arbitrary natural reduced mod
the list length; with an empty `ids` the effect returns before any state
reset (met.tsx:127). -/
def metPickRandom (ids : List Nat) (fetchObj : Nat → MetResp) (startIndex c : Nat) :
    List (Nat × Ev) × Outcome MetRecord :=
  if ids.length = 0 then ([], .silent)
  else
    let r := metLoop ids fetchObj (startIndex % ids.length) c TRY_LIMIT 0 0
    ((0, .setLoading true) :: (0, .setArtNull) :: (0, .setError "") :: r.1, r.2)

/-! ## Met identifier-list loader (met.tsx:92-116) -/

/-- Result of the one bulk `GET {BASE}/objects` request. -/
inductive BulkResp where
  | netFail
  | parseFail
  | ok (objectIDs : Option (List Nat))
deriving DecidableEq, Repr

/-- Caller-observable effects of the loader effect. -/
inductive LEv where
  | bulkFetch
  | setIds (ids : List Nat)
  | setLoading (b : Bool)
  | setError (msg : String)
  | storeSet (ids : List Nat)
deriving DecidableEq, Repr

def LEv.isBulk : LEv → Bool
  | .bulkFetch => true
  | _ => false

/-- Number of bulk fetches of the objects endpoint in a loader trace. -/
def bulkFetches (tr : List (Nat × LEv)) : Nat :=
  tr.countP fun te => te.2.isBulk

/-- The cached identifier-list loader (met.tsx:92-116).  The AsyncStorage
value under `STORAGE_KEYS.IDS` is abstracted from its JSON string to the
integer list it encodes (the loader only ever reads back what
`JSON.stringify` wrote there).  The `setItem` write is not cancellation
guarded in the source; `setIds`, `setError` and the `finally` `setLoading`
are. -/
def metLoadIds (store : Option (List Nat)) (bulk : BulkResp) (c : Nat) :
    List (Nat × LEv) × Option (List Nat) :=
  let start := [((0 : Nat), LEv.setLoading true), (0, LEv.setError "")]
  match store with
  | some arr =>
    (start ++ (if flagAt c 1 then [] else [(1, LEv.setIds arr)])
           ++ (if flagAt c 1 then [] else [(1, LEv.setLoading false)]),
     some arr)
  | none =>
    match bulk with
    | .netFail =>
      (start ++ [(1, LEv.bulkFetch)]
             ++ (if flagAt c 2 then []
                 else [(2, LEv.setError "Failed to load object IDs."), (2, LEv.setLoading false)]),
       none)
    | .parseFail =>
      (start ++ [(1, LEv.bulkFetch)]
             ++ (if flagAt c 3 then []
                 else [(3, LEv.setError "Failed to load object IDs."), (3, LEv.setLoading false)]),
       none)
    | .ok data =>
      let arr := data.getD []
      (start ++ [(1, LEv.bulkFetch), (3, LEv.storeSet arr)]
             ++ (if flagAt c 4 then [] else [(4, LEv.setIds arr)])
             ++ (if flagAt c 4 then [] else [(4, LEv.setLoading false)]),
       some arr)

/-! ## Long-press save path (met.tsx:54-87, aic.tsx:142-169, cma.tsx:165-192) -/

/-- Result of `FileSystem.downloadAsync` (the target cache path is a function
of the screen tag and artwork id and is absorbed into the oracle). -/
inductive SaveResp where
  | dlFail
  | dlOk (uri : String)
deriving DecidableEq, Repr

/-- Platform collaborators of the save path. -/
structure SaveEnv where
  download : String → SaveResp
  web : Bool
  permission : Bool
  saveOk : Bool

/-- JS `s.replace(/^http:/, "https:")` (met.tsx:59, aic.tsx:145, cma.tsx:168):
if the string begins with the five characters `http:` that prefix becomes
`https:`, otherwise the string is unchanged. -/
def forceHttps (s : String) : String :=
  match s.data with
  | 'h' :: 't' :: 't' :: 'p' :: ':' :: rest =>
    String.mk ('h' :: 't' :: 't' :: 'p' :: 's' :: ':' :: rest)
  | _ => s

/-- `saveCurrentImage`: the three copies are identical up to the filename tag
(`met-`/`aic-`/`cma-`); the met copy's alert text differs only by its
double-encoded apostrophe.  On a missing artwork or empty image URL the
function returns before any effect. -/
def saveCurrentImage (tag : String) (art : Option Artwork) (env : SaveEnv) : List Ev :=
  match art with
  | none => []
  | some a =>
    if a.img == "" then []
    else
      let url := forceHttps a.img
      Ev.download url ::
        match env.download url with
        | .dlFail => [Ev.alert "Save failed" saveFailMsg]
        | .dlOk uri =>
          if env.web then [Ev.webDownload uri (tag ++ toString a.id ++ ".jpg")]
          else
            Ev.permissionRequest ::
              if env.permission then
                Ev.saveToLibrary uri ::
                  (if env.saveOk then [Ev.alert "Saved" "Image saved to your Photos."]
                   else [Ev.alert "Save failed" saveFailMsg])
              else [Ev.alert "Permission needed" "Allow photo access to save images."]

/-- A parsed CMA attempt whose filtered candidate set is empty. -/
def cmaEmptyOk : CMAResp → Bool
  | .ok data => ((data.getD []).filter cmaFilter).isEmpty
  | _ => false

/-- A parsed AIC attempt whose filtered candidate set is empty. -/
def aicEmptyOk : AICResp → Bool
  | .ok data _ => ((data.getD []).filter aicFilter).isEmpty
  | _ => false

/-- A Met probe that yields no usable candidate (a failed probe also yields
none, and the Met loop recovers from it in place). -/
def metNoCandidate : MetResp → Bool
  | .ok o => !(metUsable o)
  | _ => true

/-! ## Concrete fixtures used by counterexamples and witnesses -/

/-- A CMA candidate that is NOT CC0 yet passes the usability filter (it has a
web image; the licence conjunct is short-circuited by `|| true`). -/
def cmaBadItem : CMAItem where
  id := 7
  title := some "Bad"
  creators := none
  creation_date := none
  department := none
  creditline := none
  url := none
  images := some { web := some { url := some "https://example.org/bad.jpg",
                                 large := none, filename := none }, print := none }
  share_license_status := some "copyrighted"

/-- A CC0 CMA candidate with a web image. -/
def cmaGoodItem : CMAItem where
  id := 101
  title := some "Good"
  creators := none
  creation_date := none
  department := none
  creditline := none
  url := none
  images := some { web := some { url := some "https://example.org/good.jpg",
                                 large := none, filename := none }, print := none }
  share_license_status := some "cc0"

/-- A CMA candidate whose only image evidence is `images.web.filename`: it
passes the filter, but the commit-time `imgUrl` chain yields nothing. -/
def cmaFilenameOnlyItem : CMAItem where
  id := 9
  title := some "Filename only"
  creators := none
  creation_date := none
  department := none
  creditline := none
  url := none
  images := some { web := some { url := none, large := none,
                                 filename := some "x.jpg" }, print := none }
  share_license_status := some "cc0"

/-- A usable AIC candidate. -/
def aicGoodItem : AICItem where
  id := 55
  title := some "AIC Good"
  artist_display := none
  date_display := none
  image_id := some "abc-123"
  department_title := none
  credit_line := none

/-- A usable Met record. -/
def metGoodRecord : MetRecord where
  isPublicDomain := true
  primaryImage := some "https://images.metmuseum.org/full.jpg"
  primaryImageSmall := some "https://images.metmuseum.org/small.jpg"
  title := some "Met Good"
  artistDisplayName := none
  objectDate := none
  objectURL := none
  department := none
  creditLine := none

/-- AIC transport: empty batches on attempts 0 and 1, one usable candidate on
attempt 2. -/
def aicThirdAttempt : Nat → AICResp := fun j =>
  if j = 2 then AICResp.ok (some [aicGoodItem]) none else AICResp.ok (some []) none

/-- CMA transport: empty batches on attempts 0 and 1, one usable candidate on
attempt 2. -/
def cmaThirdAttempt : Nat → CMAResp := fun j =>
  if j = 2 then CMAResp.ok (some [cmaGoodItem]) else CMAResp.ok (some [])

/-- CMA transport: empty batches except a filename-only candidate on attempt 2. -/
def cmaFilenameThird : Nat → CMAResp := fun j =>
  if j = 2 then CMAResp.ok (some [cmaFilenameOnlyItem]) else CMAResp.ok (some [])

/-- Met transport for the failure-recovery witness: object 10 fails, others
are usable. -/
def metRecoverFetch : Nat → MetResp := fun n =>
  if n = 10 then MetResp.netFail else MetResp.ok (some metGoodRecord)

/-- A displayed artwork whose image URL uses the `http:` scheme. -/
def httpArtwork : Artwork where
  id := 3
  title := "T"
  artist := "A"
  date := ""
  img := "http://img.example.org/pic.jpg"
  url := ""
  department := none
  creditLine := none

/-- A save environment whose download always fails. -/
def dlFailEnv : SaveEnv where
  download := fun _ => SaveResp.dlFail
  web := false
  permission := true
  saveOk := true

/-- A save environment where download succeeds and the library save fails. -/
def saveFailEnv : SaveEnv where
  download := fun _ => SaveResp.dlOk "file:///cache/pic.jpg"
  web := false
  permission := true
  saveOk := false

/-! ## Helper lemmas -/

lemma truthy_getD {o : Option String} (h : truthy o = true) : o.getD "" ≠ "" := by
  cases o with
  | none => simp [truthy] at h
  | some s =>
    simp only [Option.getD_some]
    intro hs
    subst hs
    simp [truthy] at h

lemma flagAt_false_of_lt {c k : Nat} (h : k < c) : flagAt c k = false := by
  simp only [flagAt, decide_eq_false_iff_not]
  omega

lemma lt_of_flagAt_false {c k : Nat} (h : flagAt c k = false) : k < c := by
  simp only [flagAt, decide_eq_false_iff_not] at h
  omega

lemma getD_mem {α : Type} {l : List α} {n : Nat} (h : n < l.length) (d : α) :
    l.getD n d ∈ l := by
  rw [List.getD_eq_getElem?_getD, List.getElem?_eq_getElem h]
  exact List.getElem_mem h

lemma length_pos_of_isEmpty_false {α : Type} {l : List α} (h : l.isEmpty = false) :
    0 < l.length := by
  cases l with
  | nil => simp [List.isEmpty] at h
  | cons a t => simp

lemma requestCount_cons_req (k m : Nat) (tr : List (Nat × Ev)) :
    requestCount ((k, Ev.request m) :: tr) = requestCount tr + 1 := by
  simp [requestCount, List.countP_cons, Ev.isReq]

lemma cmaLoop_success_src {responses : Nat → CMAResp} {rand : Nat → Nat} {c : Nat} :
    ∀ fuel i k p a, (cmaLoop responses rand c fuel i k).2 = Outcome.success p a →
      cmaFilter p = true ∧ truthy p.imgUrl = true ∧ a = cmaNormalize p (p.imgUrl.getD "") := by
  intro fuel
  induction fuel with
  | zero =>
    intro i k p a h
    simp only [cmaLoop] at h
    split at h <;> simp at h
  | succ n ih =>
    intro i k p a h
    simp only [cmaLoop] at h
    split at h
    · simp at h
    · split at h
      · split at h <;> simp at h
      · split at h <;> simp at h
      · rename_i data _hresp
        split at h
        · exact ih _ _ _ _ h
        · rename_i hne
          split at h
          · rename_i himg
            split at h
            · simp at h
            · simp only [Outcome.success.injEq] at h
              obtain ⟨hp, ha⟩ := h
              subst hp
              subst ha
              refine ⟨?_, himg, rfl⟩
              have hlen : 0 < (((data.getD []).filter cmaFilter)).length := by
                apply length_pos_of_isEmpty_false
                simpa using hne
              have hmem := getD_mem (Nat.mod_lt (rand i) hlen) (default : CMAItem)
              exact List.of_mem_filter hmem
          · exact ih _ _ _ _ h

lemma aicLoop_success_src {responses : Nat → AICResp} {rand : Nat → Nat} {c : Nat} :
    ∀ fuel i k it a, (aicLoop responses rand c fuel i k).2 = Outcome.success it a →
      aicFilter it = true ∧ ∃ iiif, a = aicNormalize iiif it := by
  intro fuel
  induction fuel with
  | zero =>
    intro i k it a h
    simp only [aicLoop] at h
    split at h <;> simp at h
  | succ n ih =>
    intro i k it a h
    simp only [aicLoop] at h
    split at h
    · simp at h
    · split at h
      · split at h <;> simp at h
      · split at h <;> simp at h
      · rename_i data iiif _hresp
        split at h
        · exact ih _ _ _ _ h
        · rename_i hne
          split at h
          · simp at h
          · simp only [Outcome.success.injEq] at h
            obtain ⟨hp, ha⟩ := h
            subst hp
            subst ha
            have hlen : 0 < ((data.getD []).filter aicFilter).length := by
              apply length_pos_of_isEmpty_false
              simpa using hne
            have hmem := getD_mem (Nat.mod_lt (rand i) hlen) (default : AICItem)
            exact ⟨List.of_mem_filter hmem, iiif, rfl⟩

lemma metLoop_success_src {ids : List Nat} {fetchObj : Nat → MetResp} {s c : Nat} :
    ∀ fuel i k ro a, (metLoop ids fetchObj s c fuel i k).2 = Outcome.success ro a →
      metUsable (some ro) = true ∧ ∃ objid, a = metNormalize objid ro := by
  intro fuel
  induction fuel with
  | zero =>
    intro i k ro a h
    simp only [metLoop] at h
    split at h <;> simp at h
  | succ n ih =>
    intro i k ro a h
    simp only [metLoop] at h
    split at h
    · simp at h
    · split at h
      · exact ih _ _ _ _ h
      · exact ih _ _ _ _ h
      · rename_i o _hresp
        split at h
        · rename_i hu
          split at h
          · simp at h
          · simp only [Outcome.success.injEq] at h
            obtain ⟨hp, ha⟩ := h
            subst hp
            subst ha
            cases o with
            | none => simp [metUsable] at hu
            | some r =>
              simp only [Option.getD_some]
              exact ⟨hu, _, rfl⟩
        · exact ih _ _ _ _ h

lemma aicNormalize_img_ne (iiif : Option String) (item : AICItem) :
    (aicNormalize iiif item).img ≠ "" := by
  intro h
  have h2 := congrArg String.length h
  simp [aicNormalize, String.length_append] at h2
  exact absurd h2.2 (by decide)

lemma metUsable_img_ne {ro : MetRecord} (h : metUsable (some ro) = true) (objid : Nat) :
    (metNormalize objid ro).img ≠ "" := by
  simp only [metUsable, Bool.and_eq_true] at h
  exact truthy_getD h.2

lemma cmaLoop_setArt_img {responses : Nat → CMAResp} {rand : Nat → Nat} {c : Nat} :
    ∀ fuel i k t a, (t, Ev.setArt a) ∈ (cmaLoop responses rand c fuel i k).1 → a.img ≠ "" := by
  intro fuel
  induction fuel with
  | zero =>
    intro i k t a h
    simp only [cmaLoop] at h
    split at h <;> simp_all
  | succ n ih =>
    intro i k t a h
    simp only [cmaLoop] at h
    split at h
    · simp at h
    · split at h
      · split at h <;> simp_all
      · split at h <;> simp_all
      · split at h
        · simp only [List.mem_cons] at h
          rcases h with h | h
          · simp at h
          · exact ih _ _ _ _ h
        · rename_i hne
          split at h
          · rename_i himg
            split at h
            · simp_all
            · simp only [List.mem_cons] at h
              rcases h with h | h | h
              · simp at h
              · simp only [Prod.mk.injEq, Ev.setArt.injEq] at h
                rw [h.2]
                exact truthy_getD himg
              · simp at h
          · simp only [List.mem_cons] at h
            rcases h with h | h
            · simp at h
            · exact ih _ _ _ _ h

lemma aicLoop_setArt_img {responses : Nat → AICResp} {rand : Nat → Nat} {c : Nat} :
    ∀ fuel i k t a, (t, Ev.setArt a) ∈ (aicLoop responses rand c fuel i k).1 → a.img ≠ "" := by
  intro fuel
  induction fuel with
  | zero =>
    intro i k t a h
    simp only [aicLoop] at h
    split at h <;> simp_all
  | succ n ih =>
    intro i k t a h
    simp only [aicLoop] at h
    split at h
    · simp at h
    · split at h
      · split at h <;> simp_all
      · split at h <;> simp_all
      · rename_i data iiif _hresp
        split at h
        · simp only [List.mem_cons] at h
          rcases h with h | h
          · simp at h
          · exact ih _ _ _ _ h
        · split at h
          · simp_all
          · simp only [List.mem_cons] at h
            rcases h with h | h | h
            · simp at h
            · simp only [Prod.mk.injEq, Ev.setArt.injEq] at h
              rw [h.2]
              exact aicNormalize_img_ne _ _
            · simp at h

lemma metLoop_setArt_img {ids : List Nat} {fetchObj : Nat → MetResp} {s c : Nat} :
    ∀ fuel i k t a, (t, Ev.setArt a) ∈ (metLoop ids fetchObj s c fuel i k).1 → a.img ≠ "" := by
  intro fuel
  induction fuel with
  | zero =>
    intro i k t a h
    simp only [metLoop] at h
    split at h <;> simp_all
  | succ n ih =>
    intro i k t a h
    simp only [metLoop] at h
    split at h
    · simp at h
    · split at h
      · simp only [List.mem_cons] at h
        rcases h with h | h
        · simp at h
        · exact ih _ _ _ _ h
      · simp only [List.mem_cons] at h
        rcases h with h | h
        · simp at h
        · exact ih _ _ _ _ h
      · rename_i o _hresp
        split at h
        · rename_i hu
          split at h
          · simp_all
          · simp only [List.mem_cons] at h
            rcases h with h | h | h
            · simp at h
            · simp only [Prod.mk.injEq, Ev.setArt.injEq] at h
              rw [h.2]
              cases o with
              | none => simp [metUsable] at hu
              | some r => exact metUsable_img_ne hu _
            · simp at h
        · simp only [List.mem_cons] at h
          rcases h with h | h
          · simp at h
          · exact ih _ _ _ _ h

lemma lt_of_not_flagAt {c k : Nat} (h : ¬ flagAt c k = true) : k < c := by
  simp only [flagAt, decide_eq_true_eq] at h
  omega

lemma cmaLoop_times {responses : Nat → CMAResp} {rand : Nat → Nat} {c : Nat} :
    ∀ fuel i k t e, (t, e) ∈ (cmaLoop responses rand c fuel i k).1 → t < c := by
  intro fuel
  induction fuel with
  | zero =>
    intro i k t e h
    simp only [cmaLoop] at h
    split at h
    · simp at h
    · rename_i hflag
      have hk := lt_of_not_flagAt hflag
      simp only [List.mem_cons, List.mem_singleton] at h
      rcases h with h | h | h <;> simp_all <;> omega
  | succ n ih =>
    intro i k t e h
    simp only [cmaLoop] at h
    split at h
    · simp at h
    · rename_i hflag
      have hk := lt_of_not_flagAt hflag
      split at h
      · split at h
        · simp_all
        · rename_i hflag2
          have hk2 := lt_of_not_flagAt hflag2
          simp only [List.mem_cons, List.mem_singleton] at h
          rcases h with h | h | h <;> simp_all <;> omega
      · split at h
        · simp_all
        · rename_i hflag2
          have hk2 := lt_of_not_flagAt hflag2
          simp only [List.mem_cons, List.mem_singleton] at h
          rcases h with h | h | h <;> simp_all <;> omega
      · split at h
        · simp only [List.mem_cons] at h
          rcases h with h | h
          · simp_all
          · exact ih _ _ _ _ h
        · split at h
          · split at h
            · simp_all
            · rename_i hflag2
              have hk2 := lt_of_not_flagAt hflag2
              simp only [List.mem_cons, List.mem_singleton] at h
              rcases h with h | h | h <;> simp_all <;> omega
          · simp only [List.mem_cons] at h
            rcases h with h | h
            · simp_all
            · exact ih _ _ _ _ h

lemma aicLoop_times {responses : Nat → AICResp} {rand : Nat → Nat} {c : Nat} :
    ∀ fuel i k t e, (t, e) ∈ (aicLoop responses rand c fuel i k).1 → t < c := by
  intro fuel
  induction fuel with
  | zero =>
    intro i k t e h
    simp only [aicLoop] at h
    split at h
    · simp at h
    · rename_i hflag
      have hk := lt_of_not_flagAt hflag
      simp only [List.mem_cons, List.mem_singleton] at h
      rcases h with h | h | h <;> simp_all
  | succ n ih =>
    intro i k t e h
    simp only [aicLoop] at h
    split at h
    · simp at h
    · rename_i hflag
      have hk := lt_of_not_flagAt hflag
      split at h
      · split at h
        · simp_all
        · rename_i hflag2
          have hk2 := lt_of_not_flagAt hflag2
          simp only [List.mem_cons, List.mem_singleton] at h
          rcases h with h | h | h <;> simp_all <;> omega
      · split at h
        · simp_all
        · rename_i hflag2
          have hk2 := lt_of_not_flagAt hflag2
          simp only [List.mem_cons, List.mem_singleton] at h
          rcases h with h | h | h <;> simp_all <;> omega
      · split at h
        · simp only [List.mem_cons] at h
          rcases h with h | h
          · simp_all
          · exact ih _ _ _ _ h
        · split at h
          · simp_all
          · rename_i hflag2
            have hk2 := lt_of_not_flagAt hflag2
            simp only [List.mem_cons, List.mem_singleton] at h
            rcases h with h | h | h <;> simp_all <;> omega

lemma metLoop_times {ids : List Nat} {fetchObj : Nat → MetResp} {s c : Nat} :
    ∀ fuel i k t e, (t, e) ∈ (metLoop ids fetchObj s c fuel i k).1 → t < c := by
  intro fuel
  induction fuel with
  | zero =>
    intro i k t e h
    simp only [metLoop] at h
    split at h
    · simp at h
    · rename_i hflag
      have hk := lt_of_not_flagAt hflag
      simp only [List.mem_cons, List.mem_singleton] at h
      rcases h with h | h | h <;> simp_all
  | succ n ih =>
    intro i k t e h
    simp only [metLoop] at h
    split at h
    · simp at h
    · rename_i hflag
      have hk := lt_of_not_flagAt hflag
      split at h
      · simp only [List.mem_cons] at h
        rcases h with h | h
        · simp_all
        · exact ih _ _ _ _ h
      · simp only [List.mem_cons] at h
        rcases h with h | h
        · simp_all
        · exact ih _ _ _ _ h
      · split at h
        · split at h
          · simp_all
          · rename_i hflag2
            have hk2 := lt_of_not_flagAt hflag2
            simp only [List.mem_cons, List.mem_singleton] at h
            rcases h with h | h | h <;> simp_all <;> omega
        · simp only [List.mem_cons] at h
          rcases h with h | h
          · simp_all
          · exact ih _ _ _ _ h


lemma cmaLoop_all_empty {responses : Nat → CMAResp} {rand : Nat → Nat} {c : Nat} :
    ∀ fuel i k, (∀ j, j < fuel → cmaEmptyOk (responses (i + j)) = true) → k + 2 * fuel < c →
      cmaLoop responses rand c fuel i k =
        (((List.range fuel).map fun j => (k + 2 * j, Ev.request (i + j)))
           ++ [(k + 2 * fuel, Ev.setError cmaMsg), (k + 2 * fuel, Ev.setLoading false)],
         Outcome.notFound) := by
  intro fuel
  induction fuel with
  | zero =>
    intro i k _ hc
    simp only [cmaLoop, List.range_zero, List.map_nil, List.nil_append, Nat.mul_zero,
      Nat.add_zero]
    rw [flagAt_false_of_lt (by omega)]
    simp
  | succ n ih =>
    intro i k hall hc
    have h0 : cmaEmptyOk (responses i) = true := by simpa using hall 0 (Nat.succ_pos n)
    cases hri : responses i with
    | netFail => rw [hri] at h0; simp [cmaEmptyOk] at h0
    | parseFail => rw [hri] at h0; simp [cmaEmptyOk] at h0
    | ok data =>
      rw [hri] at h0
      simp only [cmaEmptyOk] at h0
      have ihh := ih (i + 1) (k + 2)
        (fun j hj => by
          have hh := hall (j + 1) (by omega)
          simpa [show i + (j + 1) = i + 1 + j by omega] using hh)
        (by omega)
      simp only [cmaLoop]
      rw [flagAt_false_of_lt (show k < c by omega), hri]
      simp only [Bool.false_eq_true, if_false, h0, if_true]
      rw [ihh]
      simp only [List.range_succ_eq_map, List.map_cons, List.map_map, List.cons_append,
        Nat.mul_zero, Nat.add_zero, Prod.mk.injEq, List.cons.injEq]
      refine ⟨⟨trivial, ?_⟩, trivial⟩
      have hfun : ((fun j => (k + 2 * j, Ev.request (i + j))) ∘ Nat.succ)
          = fun j => (k + 2 + 2 * j, Ev.request (i + 1 + j)) := by
        funext j
        simp only [Function.comp_apply, Prod.mk.injEq, Ev.request.injEq]
        omega
      rw [hfun]
      have h2 : k + 2 * (n + 1) = k + 2 + 2 * n := by omega
      rw [h2]

lemma aicLoop_all_empty {responses : Nat → AICResp} {rand : Nat → Nat} {c : Nat} :
    ∀ fuel i k, (∀ j, j < fuel → aicEmptyOk (responses (i + j)) = true) → k + 2 * fuel < c →
      aicLoop responses rand c fuel i k =
        (((List.range fuel).map fun j => (k + 2 * j, Ev.request (i + j)))
           ++ [(k + 2 * fuel, Ev.setError aicMsg), (k + 2 * fuel, Ev.setLoading false)],
         Outcome.notFound) := by
  intro fuel
  induction fuel with
  | zero =>
    intro i k _ hc
    simp only [aicLoop, List.range_zero, List.map_nil, List.nil_append, Nat.mul_zero,
      Nat.add_zero]
    rw [flagAt_false_of_lt (by omega)]
    simp
  | succ n ih =>
    intro i k hall hc
    have h0 : aicEmptyOk (responses i) = true := by simpa using hall 0 (Nat.succ_pos n)
    cases hri : responses i with
    | netFail => rw [hri] at h0; simp [aicEmptyOk] at h0
    | parseFail => rw [hri] at h0; simp [aicEmptyOk] at h0
    | ok data iiif =>
      rw [hri] at h0
      simp only [aicEmptyOk] at h0
      have ihh := ih (i + 1) (k + 2)
        (fun j hj => by
          have hh := hall (j + 1) (by omega)
          simpa [show i + (j + 1) = i + 1 + j by omega] using hh)
        (by omega)
      simp only [aicLoop]
      rw [flagAt_false_of_lt (show k < c by omega), hri]
      simp only [Bool.false_eq_true, if_false, h0, if_true]
      rw [ihh]
      simp only [List.range_succ_eq_map, List.map_cons, List.map_map, List.cons_append,
        Nat.mul_zero, Nat.add_zero, Prod.mk.injEq, List.cons.injEq]
      refine ⟨⟨trivial, ?_⟩, trivial⟩
      have hfun : ((fun j => (k + 2 * j, Ev.request (i + j))) ∘ Nat.succ)
          = fun j => (k + 2 + 2 * j, Ev.request (i + 1 + j)) := by
        funext j
        simp only [Function.comp_apply, Prod.mk.injEq, Ev.request.injEq]
        omega
      rw [hfun]
      have h2 : k + 2 * (n + 1) = k + 2 + 2 * n := by omega
      rw [h2]

lemma metLoop_all_unusable {ids : List Nat} {fetchObj : Nat → MetResp} {s c : Nat}
    (hall : ∀ m, metNoCandidate (fetchObj m) = true) :
    ∀ fuel i k, k + 2 * fuel < c →
      (metLoop ids fetchObj s c fuel i k).2 = Outcome.notFound ∧
      requestCount (metLoop ids fetchObj s c fuel i k).1 = fuel ∧
      (∃ t, (t, Ev.setError metMsg) ∈ (metLoop ids fetchObj s c fuel i k).1) ∧
      (∀ t a, (t, Ev.setArt a) ∉ (metLoop ids fetchObj s c fuel i k).1) := by
  intro fuel
  induction fuel with
  | zero =>
    intro i k hc
    simp only [metLoop]
    rw [flagAt_false_of_lt (by omega)]
    simp only [Bool.false_eq_true, if_false]
    refine ⟨by simp, by simp [requestCount, List.countP_cons, Ev.isReq], ⟨k, by simp⟩,
      by intro t a; simp⟩
  | succ n ih =>
    intro i k hc
    have h0 := hall (ids.getD (metProbeIdx s i ids.length) 0)
    simp only [metLoop]
    rw [flagAt_false_of_lt (show k < c by omega)]
    simp only [Bool.false_eq_true, if_false]
    cases hri : fetchObj (ids.getD (metProbeIdx s i ids.length) 0) with
    | netFail =>
      dsimp only
      have ihh := ih (i + 1) (k + 1) (by omega)
      simp only [requestCount_cons_req, List.mem_cons]
      refine ⟨ihh.1, by rw [ihh.2.1], ihh.2.2.1.elim fun t ht => ⟨t, Or.inr ht⟩, ?_⟩
      intro t a hmem
      rcases hmem with hmem | hmem
      · simp at hmem
      · exact ihh.2.2.2 t a hmem
    | parseFail =>
      dsimp only
      have ihh := ih (i + 1) (k + 2) (by omega)
      simp only [requestCount_cons_req, List.mem_cons]
      refine ⟨ihh.1, by rw [ihh.2.1], ihh.2.2.1.elim fun t ht => ⟨t, Or.inr ht⟩, ?_⟩
      intro t a hmem
      rcases hmem with hmem | hmem
      · simp at hmem
      · exact ihh.2.2.2 t a hmem
    | ok o =>
      dsimp only
      rw [hri] at h0
      simp only [metNoCandidate, Bool.not_eq_true'] at h0
      rw [h0]
      simp only [Bool.false_eq_true, if_false]
      have ihh := ih (i + 1) (k + 2) (by omega)
      simp only [requestCount_cons_req, List.mem_cons]
      refine ⟨ihh.1, by rw [ihh.2.1], ihh.2.2.1.elim fun t ht => ⟨t, Or.inr ht⟩, ?_⟩
      intro t a hmem
      rcases hmem with hmem | hmem
      · simp at hmem
      · exact ihh.2.2.2 t a hmem

lemma aicLoop_step_netFail {responses : Nat → AICResp} {rand : Nat → Nat} {c fuel i k : Nat}
    (hresp : responses i = AICResp.netFail) (hk : k + 1 < c) :
    aicLoop responses rand c (fuel + 1) i k =
      ([(k, Ev.request i), (k + 1, Ev.setError aicMsg), (k + 1, Ev.setLoading false)],
       Outcome.errored) := by
  simp only [aicLoop]
  rw [flagAt_false_of_lt (show k < c by omega), hresp]
  simp only [Bool.false_eq_true, if_false]
  rw [flagAt_false_of_lt (show k + 1 < c by omega)]
  simp

lemma cmaLoop_step_netFail {responses : Nat → CMAResp} {rand : Nat → Nat} {c fuel i k : Nat}
    (hresp : responses i = CMAResp.netFail) (hk : k + 1 < c) :
    cmaLoop responses rand c (fuel + 1) i k =
      ([(k, Ev.request i), (k + 1, Ev.setError cmaMsg), (k + 1, Ev.setLoading false)],
       Outcome.errored) := by
  simp only [cmaLoop]
  rw [flagAt_false_of_lt (show k < c by omega), hresp]
  simp only [Bool.false_eq_true, if_false]
  rw [flagAt_false_of_lt (show k + 1 < c by omega)]
  simp

lemma aicLoop_step_success {responses : Nat → AICResp} {rand : Nat → Nat}
    {c fuel i k : Nat} {data : Option (List AICItem)} {iiif : Option String}
    (hresp : responses i = AICResp.ok data iiif)
    (hne : ((data.getD []).filter aicFilter).isEmpty = false)
    (hk : k + 2 < c) :
    aicLoop responses rand c (fuel + 1) i k =
      ([(k, Ev.request i),
        (k + 2, Ev.setArt (aicNormalize iiif (((data.getD []).filter aicFilter).getD
          (rand i % ((data.getD []).filter aicFilter).length) default))),
        (k + 2, Ev.setLoading false)],
       Outcome.success
         (((data.getD []).filter aicFilter).getD
           (rand i % ((data.getD []).filter aicFilter).length) default)
         (aicNormalize iiif (((data.getD []).filter aicFilter).getD
           (rand i % ((data.getD []).filter aicFilter).length) default))) := by
  simp only [aicLoop]
  rw [flagAt_false_of_lt (show k < c by omega), hresp]
  simp only [Bool.false_eq_true, if_false, hne]
  rw [flagAt_false_of_lt (show k + 2 < c by omega)]
  simp

lemma cmaLoop_step_success {responses : Nat → CMAResp} {rand : Nat → Nat}
    {c fuel i k : Nat} {data : Option (List CMAItem)}
    (hresp : responses i = CMAResp.ok data)
    (hne : ((data.getD []).filter cmaFilter).isEmpty = false)
    (himg : truthy (((data.getD []).filter cmaFilter).getD
      (rand i % ((data.getD []).filter cmaFilter).length) default).imgUrl = true)
    (hk : k + 2 < c) :
    cmaLoop responses rand c (fuel + 1) i k =
      ([(k, Ev.request i),
        (k + 2, Ev.setArt (cmaNormalize
          (((data.getD []).filter cmaFilter).getD
            (rand i % ((data.getD []).filter cmaFilter).length) default)
          ((((data.getD []).filter cmaFilter).getD
            (rand i % ((data.getD []).filter cmaFilter).length) default).imgUrl.getD ""))),
        (k + 2, Ev.setLoading false)],
       Outcome.success
         (((data.getD []).filter cmaFilter).getD
           (rand i % ((data.getD []).filter cmaFilter).length) default)
         (cmaNormalize
           (((data.getD []).filter cmaFilter).getD
             (rand i % ((data.getD []).filter cmaFilter).length) default)
           ((((data.getD []).filter cmaFilter).getD
             (rand i % ((data.getD []).filter cmaFilter).length) default).imgUrl.getD ""))) := by
  simp only [cmaLoop]
  rw [flagAt_false_of_lt (show k < c by omega), hresp]
  simp only [Bool.false_eq_true, if_false, hne, himg, if_true]
  rw [flagAt_false_of_lt (show k + 2 < c by omega)]
  simp

lemma metLoop_step_fail {ids : List Nat} {fetchObj : Nat → MetResp} {s c fuel i k : Nat}
    (hresp : fetchObj (ids.getD (metProbeIdx s i ids.length) 0) = MetResp.netFail)
    (hk : k < c) :
    metLoop ids fetchObj s c (fuel + 1) i k =
      ((k, Ev.request (ids.getD (metProbeIdx s i ids.length) 0)) ::
         (metLoop ids fetchObj s c fuel (i + 1) (k + 1)).1,
       (metLoop ids fetchObj s c fuel (i + 1) (k + 1)).2) := by
  simp only [metLoop]
  rw [flagAt_false_of_lt hk, hresp]
  simp

lemma metLoop_step_success {ids : List Nat} {fetchObj : Nat → MetResp}
    {s c fuel i k : Nat} {ro : MetRecord}
    (hresp : fetchObj (ids.getD (metProbeIdx s i ids.length) 0) = MetResp.ok (some ro))
    (hu : metUsable (some ro) = true)
    (hk : k + 2 < c) :
    metLoop ids fetchObj s c (fuel + 1) i k =
      ([(k, Ev.request (ids.getD (metProbeIdx s i ids.length) 0)),
        (k + 2, Ev.setArt (metNormalize (ids.getD (metProbeIdx s i ids.length) 0) ro)),
        (k + 2, Ev.setLoading false)],
       Outcome.success ro (metNormalize (ids.getD (metProbeIdx s i ids.length) 0) ro)) := by
  simp only [metLoop]
  rw [flagAt_false_of_lt (show k < c by omega), hresp]
  simp only [Option.getD_some, hu, if_true]
  rw [flagAt_false_of_lt (show k + 2 < c by omega)]
  simp

lemma aicLoop_skip_empties {responses : Nat → AICResp} {rand : Nat → Nat} {c : Nat} :
    ∀ m fuel i k, (∀ j, j < m → aicEmptyOk (responses (i + j)) = true) → k + 2 * m < c →
      aicLoop responses rand c (fuel + m) i k =
        (((List.range m).map fun j => (k + 2 * j, Ev.request (i + j)))
           ++ (aicLoop responses rand c fuel (i + m) (k + 2 * m)).1,
         (aicLoop responses rand c fuel (i + m) (k + 2 * m)).2) := by
  intro m
  induction m with
  | zero => intro fuel i k _ _; simp
  | succ n ih =>
    intro fuel i k hall hc
    have h0 : aicEmptyOk (responses i) = true := by simpa using hall 0 (Nat.succ_pos n)
    cases hri : responses i with
    | netFail => rw [hri] at h0; simp [aicEmptyOk] at h0
    | parseFail => rw [hri] at h0; simp [aicEmptyOk] at h0
    | ok data iiif =>
      rw [hri] at h0
      simp only [aicEmptyOk] at h0
      have hstep : aicLoop responses rand c (fuel + (n + 1)) i k =
          ((k, Ev.request i) :: (aicLoop responses rand c (fuel + n) (i + 1) (k + 2)).1,
           (aicLoop responses rand c (fuel + n) (i + 1) (k + 2)).2) := by
        have hfn : fuel + (n + 1) = (fuel + n) + 1 := by omega
        rw [hfn]
        simp only [aicLoop]
        rw [flagAt_false_of_lt (show k < c by omega), hri]
        simp only [Bool.false_eq_true, if_false, h0, if_true]
      rw [hstep, ih fuel (i + 1) (k + 2)
        (fun j hj => by
          have hh := hall (j + 1) (by omega)
          simpa [show i + (j + 1) = i + 1 + j by omega] using hh)
        (by omega)]
      have hi : i + (n + 1) = i + 1 + n := by omega
      have hk2 : k + 2 * (n + 1) = k + 2 + 2 * n := by omega
      rw [hi, hk2]
      simp only [List.range_succ_eq_map, List.map_cons, List.map_map, List.cons_append,
        Nat.mul_zero, Nat.add_zero, Prod.mk.injEq, List.cons.injEq]
      refine ⟨⟨trivial, ?_⟩, trivial⟩
      have hfun : ((fun j => (k + 2 * j, Ev.request (i + j))) ∘ Nat.succ)
          = fun j => (k + 2 + 2 * j, Ev.request (i + 1 + j)) := by
        funext j
        simp only [Function.comp_apply, Prod.mk.injEq, Ev.request.injEq]
        omega
      rw [hfun]

lemma cmaLoop_skip_empties {responses : Nat → CMAResp} {rand : Nat → Nat} {c : Nat} :
    ∀ m fuel i k, (∀ j, j < m → cmaEmptyOk (responses (i + j)) = true) → k + 2 * m < c →
      cmaLoop responses rand c (fuel + m) i k =
        (((List.range m).map fun j => (k + 2 * j, Ev.request (i + j)))
           ++ (cmaLoop responses rand c fuel (i + m) (k + 2 * m)).1,
         (cmaLoop responses rand c fuel (i + m) (k + 2 * m)).2) := by
  intro m
  induction m with
  | zero => intro fuel i k _ _; simp
  | succ n ih =>
    intro fuel i k hall hc
    have h0 : cmaEmptyOk (responses i) = true := by simpa using hall 0 (Nat.succ_pos n)
    cases hri : responses i with
    | netFail => rw [hri] at h0; simp [cmaEmptyOk] at h0
    | parseFail => rw [hri] at h0; simp [cmaEmptyOk] at h0
    | ok data =>
      rw [hri] at h0
      simp only [cmaEmptyOk] at h0
      have hstep : cmaLoop responses rand c (fuel + (n + 1)) i k =
          ((k, Ev.request i) :: (cmaLoop responses rand c (fuel + n) (i + 1) (k + 2)).1,
           (cmaLoop responses rand c (fuel + n) (i + 1) (k + 2)).2) := by
        have hfn : fuel + (n + 1) = (fuel + n) + 1 := by omega
        rw [hfn]
        simp only [cmaLoop]
        rw [flagAt_false_of_lt (show k < c by omega), hri]
        simp only [Bool.false_eq_true, if_false, h0, if_true]
      rw [hstep, ih fuel (i + 1) (k + 2)
        (fun j hj => by
          have hh := hall (j + 1) (by omega)
          simpa [show i + (j + 1) = i + 1 + j by omega] using hh)
        (by omega)]
      have hi : i + (n + 1) = i + 1 + n := by omega
      have hk2 : k + 2 * (n + 1) = k + 2 + 2 * n := by omega
      rw [hi, hk2]
      simp only [List.range_succ_eq_map, List.map_cons, List.map_map, List.cons_append,
        Nat.mul_zero, Nat.add_zero, Prod.mk.injEq, List.cons.injEq]
      refine ⟨⟨trivial, ?_⟩, trivial⟩
      have hfun : ((fun j => (k + 2 * j, Ev.request (i + j))) ∘ Nat.succ)
          = fun j => (k + 2 + 2 * j, Ev.request (i + 1 + j)) := by
        funext j
        simp only [Function.comp_apply, Prod.mk.injEq, Ev.request.injEq]
        omega
      rw [hfun]

lemma requestCount_append (a b : List (Nat × Ev)) :
    requestCount (a ++ b) = requestCount a + requestCount b := by
  simp [requestCount, List.countP_append]

lemma requestCount_range_map (f g : Nat → Nat) (n : Nat) :
    requestCount ((List.range n).map fun j => (f j, Ev.request (g j))) = n := by
  simp only [requestCount]
  rw [List.countP_map]
  rw [List.countP_eq_length.mpr]
  · exact List.length_range n
  · intro a _
    simp [Ev.isReq]

lemma requestCount_cons_nonreq (k : Nat) (e : Ev) (tr : List (Nat × Ev)) (h : e.isReq = false) :
    requestCount ((k, e) :: tr) = requestCount tr := by
  simp [requestCount, List.countP_cons, h]

lemma aicLoop_step_parseFail {responses : Nat → AICResp} {rand : Nat → Nat} {c fuel i k : Nat}
    (hresp : responses i = AICResp.parseFail) (hk : k + 2 < c) :
    aicLoop responses rand c (fuel + 1) i k =
      ([(k, Ev.request i), (k + 2, Ev.setError aicMsg), (k + 2, Ev.setLoading false)],
       Outcome.errored) := by
  simp only [aicLoop]
  rw [flagAt_false_of_lt (show k < c by omega), hresp]
  simp only [Bool.false_eq_true, if_false]
  rw [flagAt_false_of_lt (show k + 2 < c by omega)]
  simp

lemma cmaLoop_step_parseFail {responses : Nat → CMAResp} {rand : Nat → Nat} {c fuel i k : Nat}
    (hresp : responses i = CMAResp.parseFail) (hk : k + 2 < c) :
    cmaLoop responses rand c (fuel + 1) i k =
      ([(k, Ev.request i), (k + 2, Ev.setError cmaMsg), (k + 2, Ev.setLoading false)],
       Outcome.errored) := by
  simp only [cmaLoop]
  rw [flagAt_false_of_lt (show k < c by omega), hresp]
  simp only [Bool.false_eq_true, if_false]
  rw [flagAt_false_of_lt (show k + 2 < c by omega)]
  simp

lemma aicLoop_step_empty {responses : Nat → AICResp} {rand : Nat → Nat} {c fuel i k : Nat}
    (hresp : aicEmptyOk (responses i) = true) (hflag : flagAt c k = false) :
    aicLoop responses rand c (fuel + 1) i k =
      ((k, Ev.request i) :: (aicLoop responses rand c fuel (i + 1) (k + 2)).1,
       (aicLoop responses rand c fuel (i + 1) (k + 2)).2) := by
  cases hri : responses i with
  | netFail => rw [hri] at hresp; simp [aicEmptyOk] at hresp
  | parseFail => rw [hri] at hresp; simp [aicEmptyOk] at hresp
  | ok data iiif =>
    rw [hri] at hresp
    simp only [aicEmptyOk] at hresp
    simp only [aicLoop]
    rw [hflag, hri]
    simp only [Bool.false_eq_true, if_false, hresp, if_true]

lemma cmaLoop_step_empty {responses : Nat → CMAResp} {rand : Nat → Nat} {c fuel i k : Nat}
    (hresp : cmaEmptyOk (responses i) = true) (hflag : flagAt c k = false) :
    cmaLoop responses rand c (fuel + 1) i k =
      ((k, Ev.request i) :: (cmaLoop responses rand c fuel (i + 1) (k + 2)).1,
       (cmaLoop responses rand c fuel (i + 1) (k + 2)).2) := by
  cases hri : responses i with
  | netFail => rw [hri] at hresp; simp [cmaEmptyOk] at hresp
  | parseFail => rw [hri] at hresp; simp [cmaEmptyOk] at hresp
  | ok data =>
    rw [hri] at hresp
    simp only [cmaEmptyOk] at hresp
    simp only [cmaLoop]
    rw [hflag, hri]
    simp only [Bool.false_eq_true, if_false, hresp, if_true]

lemma metLoop_step_parse {ids : List Nat} {fetchObj : Nat → MetResp} {s c fuel i k : Nat}
    (hresp : fetchObj (ids.getD (metProbeIdx s i ids.length) 0) = MetResp.parseFail)
    (hk : k < c) :
    metLoop ids fetchObj s c (fuel + 1) i k =
      ((k, Ev.request (ids.getD (metProbeIdx s i ids.length) 0)) ::
         (metLoop ids fetchObj s c fuel (i + 1) (k + 2)).1,
       (metLoop ids fetchObj s c fuel (i + 1) (k + 2)).2) := by
  simp only [metLoop]
  rw [flagAt_false_of_lt hk, hresp]
  simp

/-! ## Claim theorems -/

/-- C3: for the Met ID-enumeration finder, the i-th probe inspects index
`(s + i * 9973) % L`; whenever `gcd 9973 L = 1`, the probe-index map is
injective below `L`, so no index is probed twice within the first `L` probes
— in particular the whole 200-probe budget is repeat-free when `200 ≤ L`. -/
theorem C3_probe_sequence_injective (s L : Nat) (hL : 0 < L)
    (hgcd : Nat.gcd STRIDE L = 1) :
    (∀ i, metProbeIdx s i L = (s + i * 9973) % L) ∧
    (∀ i j, i < L → j < L → metProbeIdx s i L = metProbeIdx s j L → i = j) ∧
    (TRY_LIMIT ≤ L → (metProbes s L TRY_LIMIT).Nodup) := by
  have hinj : ∀ i j, i < L → j < L → metProbeIdx s i L = metProbeIdx s j L → i = j := by
    intro i j hi hj h
    have hm : s + i * STRIDE ≡ s + j * STRIDE [MOD L] := h
    have h2 : i * STRIDE ≡ j * STRIDE [MOD L] := Nat.ModEq.add_left_cancel' s hm
    have h3 : STRIDE * i ≡ STRIDE * j [MOD L] := by
      rwa [Nat.mul_comm i, Nat.mul_comm j] at h2
    have h4 : i ≡ j [MOD L] :=
      Nat.ModEq.cancel_left_of_coprime (by rwa [Nat.gcd_comm] at hgcd) h3
    have h5 := h4
    unfold Nat.ModEq at h5
    rwa [Nat.mod_eq_of_lt hi, Nat.mod_eq_of_lt hj] at h5
  refine ⟨fun i => rfl, hinj, fun hbound => ?_⟩
  apply List.Nodup.map_on
  · intro x hx y hy hxy
    exact hinj x y (lt_of_lt_of_le (List.mem_range.mp hx) hbound)
      (lt_of_lt_of_le (List.mem_range.mp hy) hbound) hxy
  · exact List.nodup_range TRY_LIMIT

/-- Witness for C3 at `s = 5`, `L = 211` (`gcd 9973 211 = 1`, `211 ≥ 200`). -/
theorem C3_witness : (metProbes 5 211 TRY_LIMIT).Nodup :=
  (C3_probe_sequence_injective 5 211 (by decide) (by decide)).2.2 (by decide)

/-- C1 (amended): every successful find() returns an artwork whose source
candidate is accepted by its catalog's usability filter (round-trip), and for
the Met screen the returned record has `isPublicDomain = true`.  For the CMA
screen the filter demands only a resolvable image URL: its licence conjunct
is short-circuited by `|| true` (cma.tsx:107), so `share_license_status =
"cc0"` is NOT guaranteed client-side (CC0 is only requested via the server
query parameter `cc0=1`). -/
theorem C1_usability_roundtrip_amended :
    (∀ ids fetchObj s c ro a, (metPickRandom ids fetchObj s c).2 = Outcome.success ro a →
       metUsable (some ro) = true ∧ ro.isPublicDomain = true) ∧
    (∀ responses rand c p a, (pickRandomCMA responses rand c).2 = Outcome.success p a →
       cmaFilter p = true ∧ truthy p.imgUrl = true) ∧
    (∀ responses rand c it a, (pickRandomAIC responses rand c).2 = Outcome.success it a →
       aicFilter it = true) := by
  refine ⟨?_, ?_, ?_⟩
  · intro ids fetchObj s c ro a h
    simp only [metPickRandom] at h
    split at h
    · simp at h
    · have hs := metLoop_success_src _ _ _ _ _ h
      exact ⟨hs.1, by
        have h1 := hs.1
        simp only [metUsable, Bool.and_eq_true] at h1
        exact h1.1⟩
  · intro responses rand c p a h
    simp only [pickRandomCMA] at h
    have hs := cmaLoop_success_src _ _ _ _ _ h
    exact ⟨hs.1, hs.2.1⟩
  · intro responses rand c it a h
    simp only [pickRandomAIC] at h
    exact (aicLoop_success_src _ _ _ _ _ h).1

/-- C1 counterexample: a transport batch holding a single non-CC0 candidate
with a web image is accepted by the CMA filter and returned by `find()` —
refuting the claim's "every returned CMA candidate's share_license_status is
CC0". -/
theorem C1_cma_cc0_counterexample :
    cmaFilter cmaBadItem = true ∧
    cmaBadItem.share_license_status = some "copyrighted" ∧
    (pickRandomCMA (fun _ => CMAResp.ok (some [cmaBadItem])) (fun _ => 0) 1000).2 =
      Outcome.success cmaBadItem (cmaNormalize cmaBadItem "https://example.org/bad.jpg") := by
  exact ⟨by decide, rfl, by decide⟩

/-- Witness for C1 on concrete successful runs of all three finders. -/
theorem C1_witness :
    (metUsable (some metGoodRecord) = true ∧ metGoodRecord.isPublicDomain = true) ∧
    (cmaFilter cmaGoodItem = true ∧ truthy cmaGoodItem.imgUrl = true) ∧
    aicFilter aicGoodItem = true :=
  ⟨C1_usability_roundtrip_amended.1 [42] (fun _ => MetResp.ok (some metGoodRecord)) 0 1000
      metGoodRecord (metNormalize 42 metGoodRecord) (by decide),
   C1_usability_roundtrip_amended.2.1 (fun _ => CMAResp.ok (some [cmaGoodItem])) (fun _ => 0)
      1000 cmaGoodItem (cmaNormalize cmaGoodItem "https://example.org/good.jpg") (by decide),
   C1_usability_roundtrip_amended.2.2 (fun _ => AICResp.ok (some [aicGoodItem]) none)
      (fun _ => 0) 1000 aicGoodItem (aicNormalize none aicGoodItem) (by decide)⟩

/-- C6: every successfully returned artwork has a non-empty image URL, and
every `setArt` commit in any trace of any of the three finders carries a
non-empty image URL (no partially-populated artwork is ever committed). -/
theorem C6_imageUrl_nonempty :
    (∀ ids fetchObj s c ro a, (metPickRandom ids fetchObj s c).2 = Outcome.success ro a →
       a.img ≠ "") ∧
    (∀ responses rand c p a, (pickRandomCMA responses rand c).2 = Outcome.success p a →
       a.img ≠ "") ∧
    (∀ responses rand c it a, (pickRandomAIC responses rand c).2 = Outcome.success it a →
       a.img ≠ "") ∧
    (∀ ids fetchObj s c t a, (t, Ev.setArt a) ∈ (metPickRandom ids fetchObj s c).1 →
       a.img ≠ "") ∧
    (∀ responses rand c t a, (t, Ev.setArt a) ∈ (pickRandomCMA responses rand c).1 →
       a.img ≠ "") ∧
    (∀ responses rand c t a, (t, Ev.setArt a) ∈ (pickRandomAIC responses rand c).1 →
       a.img ≠ "") := by
  refine ⟨?_, ?_, ?_, ?_, ?_, ?_⟩
  · intro ids fetchObj s c ro a h
    simp only [metPickRandom] at h
    split at h
    · simp at h
    · obtain ⟨hu, objid, ha⟩ := metLoop_success_src _ _ _ _ _ h
      rw [ha]
      exact metUsable_img_ne hu objid
  · intro responses rand c p a h
    simp only [pickRandomCMA] at h
    obtain ⟨_, himg, ha⟩ := cmaLoop_success_src _ _ _ _ _ h
    rw [ha]
    exact truthy_getD himg
  · intro responses rand c it a h
    simp only [pickRandomAIC] at h
    obtain ⟨_, iiif, ha⟩ := aicLoop_success_src _ _ _ _ _ h
    rw [ha]
    exact aicNormalize_img_ne iiif it
  · intro ids fetchObj s c t a h
    simp only [metPickRandom] at h
    split at h
    · simp at h
    · simp only [List.mem_cons] at h
      rcases h with h | h | h | h
    -- three initial events, then the loop
      · simp at h
      · simp at h
      · simp at h
      · exact metLoop_setArt_img _ _ _ _ _ h
  · intro responses rand c t a h
    simp only [pickRandomCMA, List.mem_cons] at h
    rcases h with h | h | h | h
    · simp at h
    · simp at h
    · simp at h
    · exact cmaLoop_setArt_img _ _ _ _ _ h
  · intro responses rand c t a h
    simp only [pickRandomAIC, List.mem_cons] at h
    rcases h with h | h | h | h
    · simp at h
    · simp at h
    · simp at h
    · exact aicLoop_setArt_img _ _ _ _ _ h

/-- Witness for C6 on concrete successful runs (success outcomes and a
concrete committed `setArt` event). -/
theorem C6_witness :
    (metNormalize 42 metGoodRecord).img ≠ "" ∧
    (cmaNormalize cmaGoodItem "https://example.org/good.jpg").img ≠ "" ∧
    (aicNormalize none aicGoodItem).img ≠ "" :=
  ⟨C6_imageUrl_nonempty.1 [42] (fun _ => MetResp.ok (some metGoodRecord)) 0 1000
      metGoodRecord (metNormalize 42 metGoodRecord) (by decide),
   C6_imageUrl_nonempty.2.1 (fun _ => CMAResp.ok (some [cmaGoodItem])) (fun _ => 0) 1000
      cmaGoodItem (cmaNormalize cmaGoodItem "https://example.org/good.jpg") (by decide),
   C6_imageUrl_nonempty.2.2.1 (fun _ => AICResp.ok (some [aicGoodItem]) none) (fun _ => 0)
      1000 aicGoodItem (aicNormalize none aicGoodItem) (by decide)⟩

/-- C7: once the cancellation flag is set (after `c` completed awaits, with
`c ≥ 1` since the cleanup can only run once the effect body has suspended),
no caller-observable event — neither a request nor any state mutation — is
emitted at or after that point: every event in the trace is stamped strictly
before `c`.  The flag is read at the loop head before each round-trip and
again before each commit. -/
theorem C7_cancellation_no_mutation :
    (∀ ids fetchObj s c, 1 ≤ c →
       ∀ t e, (t, e) ∈ (metPickRandom ids fetchObj s c).1 → t < c) ∧
    (∀ responses rand c, 1 ≤ c →
       ∀ t e, (t, e) ∈ (pickRandomCMA responses rand c).1 → t < c) ∧
    (∀ responses rand c, 1 ≤ c →
       ∀ t e, (t, e) ∈ (pickRandomAIC responses rand c).1 → t < c) := by
  refine ⟨?_, ?_, ?_⟩
  · intro ids fetchObj s c hc t e h
    simp only [metPickRandom] at h
    split at h
    · simp at h
    · simp only [List.mem_cons] at h
      rcases h with h | h | h | h
      · simp only [Prod.mk.injEq] at h
        omega
      · simp only [Prod.mk.injEq] at h
        omega
      · simp only [Prod.mk.injEq] at h
        omega
      · exact metLoop_times _ _ _ _ _ h
  · intro responses rand c hc t e h
    simp only [pickRandomCMA, List.mem_cons] at h
    rcases h with h | h | h | h
    · simp only [Prod.mk.injEq] at h
      omega
    · simp only [Prod.mk.injEq] at h
      omega
    · simp only [Prod.mk.injEq] at h
      omega
    · exact cmaLoop_times _ _ _ _ _ h
  · intro responses rand c hc t e h
    simp only [pickRandomAIC, List.mem_cons] at h
    rcases h with h | h | h | h
    · simp only [Prod.mk.injEq] at h
      omega
    · simp only [Prod.mk.injEq] at h
      omega
    · simp only [Prod.mk.injEq] at h
      omega
    · exact aicLoop_times _ _ _ _ _ h

/-- Witness for C7: a run cancelled after 5 awaits emits its initial reset
(at time 0, before the cancellation) and nothing at or past time 5. -/
theorem C7_witness :
    (1 : Nat) ≤ 5 ∧
    (0, Ev.setLoading true) ∈ (metPickRandom [1] (fun _ => MetResp.ok none) 0 5).1 ∧
    (0 : Nat) < 5 ∧
    (0, Ev.setLoading true) ∈ (pickRandomCMA (fun _ => CMAResp.ok (some [])) (fun _ => 0) 5).1 ∧
    (0, Ev.setLoading true) ∈ (pickRandomAIC (fun _ => AICResp.ok (some []) none) (fun _ => 0) 5).1 :=
  ⟨by decide,
   by decide,
   C7_cancellation_no_mutation.1 [1] (fun _ => MetResp.ok none) 0 5 (by decide) 0
     (Ev.setLoading true) (by decide),
   by decide,
   by decide⟩

/-- C5: when every attempt yields an empty usable-candidate set (for the Met
screen: every probed record is unusable), the finder issues exactly its full
attempt budget of requests — 12 for each batch screen, 200 probes for the Met
screen — then sets the user-facing retry message and commits no artwork. -/
theorem C5_budget_exhaustion :
    (∀ responses rand c, (∀ i, i < ATTEMPTS → aicEmptyOk (responses i) = true) →
       2 * ATTEMPTS < c →
       requestCount (pickRandomAIC responses rand c).1 = ATTEMPTS ∧
       (pickRandomAIC responses rand c).2 = Outcome.notFound ∧
       (2 * ATTEMPTS, Ev.setError aicMsg) ∈ (pickRandomAIC responses rand c).1 ∧
       (∀ t a, (t, Ev.setArt a) ∉ (pickRandomAIC responses rand c).1)) ∧
    (∀ responses rand c, (∀ i, i < ATTEMPTS → cmaEmptyOk (responses i) = true) →
       2 * ATTEMPTS < c →
       requestCount (pickRandomCMA responses rand c).1 = ATTEMPTS ∧
       (pickRandomCMA responses rand c).2 = Outcome.notFound ∧
       (2 * ATTEMPTS, Ev.setError cmaMsg) ∈ (pickRandomCMA responses rand c).1 ∧
       (∀ t a, (t, Ev.setArt a) ∉ (pickRandomCMA responses rand c).1)) ∧
    (∀ ids fetchObj s c, ids.length ≠ 0 →
       (∀ m, metNoCandidate (fetchObj m) = true) → 2 * TRY_LIMIT < c →
       requestCount (metPickRandom ids fetchObj s c).1 = TRY_LIMIT ∧
       (metPickRandom ids fetchObj s c).2 = Outcome.notFound ∧
       (∃ t, (t, Ev.setError metMsg) ∈ (metPickRandom ids fetchObj s c).1) ∧
       (∀ t a, (t, Ev.setArt a) ∉ (metPickRandom ids fetchObj s c).1)) := by
  refine ⟨?_, ?_, ?_⟩
  · intro responses rand c hall hc
    have hc' : 0 + 2 * ATTEMPTS < c := by omega
    have htr := @aicLoop_all_empty responses rand c ATTEMPTS 0 0
      (fun j hj => by simpa using hall j hj) hc'
    simp only [pickRandomAIC, htr]
    refine ⟨?_, trivial, ?_, ?_⟩
    · simp only [requestCount, List.countP_cons, Ev.isReq, List.countP_append,
        List.countP_map, Nat.zero_add]
      exact (List.countP_eq_length.mpr fun a _ => rfl).trans (List.length_range ATTEMPTS)
    · simp
    · intro t a hmem
      simp only [List.mem_cons, List.mem_append, List.mem_map] at hmem
      rcases hmem with h | h | h | (⟨j, _, h⟩ | h | h) <;> simp at h
  · intro responses rand c hall hc
    have hc' : 0 + 2 * ATTEMPTS < c := by omega
    have htr := @cmaLoop_all_empty responses rand c ATTEMPTS 0 0
      (fun j hj => by simpa using hall j hj) hc'
    simp only [pickRandomCMA, htr]
    refine ⟨?_, trivial, ?_, ?_⟩
    · simp only [requestCount, List.countP_cons, Ev.isReq, List.countP_append,
        List.countP_map, Nat.zero_add]
      exact (List.countP_eq_length.mpr fun a _ => rfl).trans (List.length_range ATTEMPTS)
    · simp
    · intro t a hmem
      simp only [List.mem_cons, List.mem_append, List.mem_map] at hmem
      rcases hmem with h | h | h | (⟨j, _, h⟩ | h | h) <;> simp at h
  · intro ids fetchObj s c hlen hall hc
    have hc' : 0 + 2 * TRY_LIMIT < c := by omega
    have hml := @metLoop_all_unusable ids fetchObj (s % ids.length) c hall TRY_LIMIT 0 0 hc'
    simp only [metPickRandom]
    rw [if_neg hlen]
    refine ⟨?_, hml.1, ?_, ?_⟩
    · simpa [requestCount, List.countP_cons, Ev.isReq] using hml.2.1
    · obtain ⟨t, ht⟩ := hml.2.2.1
      exact ⟨t, by simp [List.mem_cons, ht]⟩
    · intro t a hmem
      simp only [List.mem_cons] at hmem
      rcases hmem with h | h | h | h
      · simp at h
      · simp at h
      · simp at h
      · exact hml.2.2.2 t a h

/-- Witness for C5 on always-empty transports for all three finders. -/
theorem C5_witness :
    (requestCount (pickRandomAIC (fun _ => AICResp.ok (some []) none) (fun _ => 0) 10000).1
       = ATTEMPTS ∧
     (pickRandomAIC (fun _ => AICResp.ok (some []) none) (fun _ => 0) 10000).2
       = Outcome.notFound) ∧
    (requestCount (pickRandomCMA (fun _ => CMAResp.ok (some [])) (fun _ => 0) 10000).1
       = ATTEMPTS ∧
     (pickRandomCMA (fun _ => CMAResp.ok (some [])) (fun _ => 0) 10000).2
       = Outcome.notFound) ∧
    (requestCount (metPickRandom [1, 2, 3] (fun _ => MetResp.ok none) 0 10000).1
       = TRY_LIMIT ∧
     (metPickRandom [1, 2, 3] (fun _ => MetResp.ok none) 0 10000).2
       = Outcome.notFound) := by
  have h1 := C5_budget_exhaustion.1 (fun _ => AICResp.ok (some []) none) (fun _ => 0) 10000
    (fun i _ => by show aicEmptyOk (AICResp.ok (some []) none) = true; decide) (by decide)
  have h2 := C5_budget_exhaustion.2.1 (fun _ => CMAResp.ok (some [])) (fun _ => 0) 10000
    (fun i _ => by show cmaEmptyOk (CMAResp.ok (some [])) = true; decide) (by decide)
  have h3 := C5_budget_exhaustion.2.2 [1, 2, 3] (fun _ => MetResp.ok none) 0 10000
    (by decide) (fun m => by show metNoCandidate (MetResp.ok none) = true; decide) (by decide)
  exact ⟨⟨h1.1, h1.2.1⟩, ⟨h2.1, h2.2.1⟩, ⟨h3.1, h3.2.1⟩⟩

/-- C2 counterexample: on the AIC screen, a transport failure on attempt 0
terminates the whole `find()` even though attempt 1 would have returned a
usable candidate — one request issued, the retry message surfaced — because
the `try`/`catch` of `pickRandomAIC` wraps the entire attempt loop
(aic.tsx:89-133).  This refutes "a single transient failure never terminates
the whole find() operation or surfaces to the caller". -/
theorem C2_transient_failure_counterexample :
    (pickRandomAIC
       (fun i => if i = 0 then AICResp.netFail else AICResp.ok (some [aicGoodItem]) none)
       (fun _ => 0) 1000).2 = Outcome.errored ∧
    requestCount (pickRandomAIC
       (fun i => if i = 0 then AICResp.netFail else AICResp.ok (some [aicGoodItem]) none)
       (fun _ => 0) 1000).1 = 1 ∧
    (1, Ev.setError aicMsg) ∈ (pickRandomAIC
       (fun i => if i = 0 then AICResp.netFail else AICResp.ok (some [aicGoodItem]) none)
       (fun _ => 0) 1000).1 := by
  exact ⟨by decide, by decide, by decide⟩

/-- C2 (amended): on the AIC and CMA screens the `try`/`catch` wraps the
whole attempt loop, so a transport **or parse** failure on any attempt `kk`
(reached after `kk` empty attempts) aborts the remaining attempts after
exactly `kk + 1` requests and immediately surfaces the retry message; an
attempt whose parsed batch is merely empty consumes only that attempt, the
loop continuing with attempt `i + 1`; and only the Met screen recovers from a
transport or parse failure on any probe `i`, continuing with probe `i + 1`
(its `try`/`catch` is inside the loop). -/
theorem C2_failure_handling_amended :
    (∀ responses rand c kk, kk < ATTEMPTS →
       (∀ j, j < kk → aicEmptyOk (responses j) = true) →
       (responses kk = AICResp.netFail ∨ responses kk = AICResp.parseFail) →
       2 * ATTEMPTS < c →
       (pickRandomAIC responses rand c).2 = Outcome.errored ∧
       requestCount (pickRandomAIC responses rand c).1 = kk + 1 ∧
       (∃ t, (t, Ev.setError aicMsg) ∈ (pickRandomAIC responses rand c).1)) ∧
    (∀ responses rand c kk, kk < ATTEMPTS →
       (∀ j, j < kk → cmaEmptyOk (responses j) = true) →
       (responses kk = CMAResp.netFail ∨ responses kk = CMAResp.parseFail) →
       2 * ATTEMPTS < c →
       (pickRandomCMA responses rand c).2 = Outcome.errored ∧
       requestCount (pickRandomCMA responses rand c).1 = kk + 1 ∧
       (∃ t, (t, Ev.setError cmaMsg) ∈ (pickRandomCMA responses rand c).1)) ∧
    (∀ responses rand c fuel i k, aicEmptyOk (responses i) = true → flagAt c k = false →
       aicLoop responses rand c (fuel + 1) i k =
         ((k, Ev.request i) :: (aicLoop responses rand c fuel (i + 1) (k + 2)).1,
          (aicLoop responses rand c fuel (i + 1) (k + 2)).2)) ∧
    (∀ responses rand c fuel i k, cmaEmptyOk (responses i) = true → flagAt c k = false →
       cmaLoop responses rand c (fuel + 1) i k =
         ((k, Ev.request i) :: (cmaLoop responses rand c fuel (i + 1) (k + 2)).1,
          (cmaLoop responses rand c fuel (i + 1) (k + 2)).2)) ∧
    (∀ ids fetchObj s c fuel i k, k < c →
       (fetchObj (ids.getD (metProbeIdx s i ids.length) 0) = MetResp.netFail →
         metLoop ids fetchObj s c (fuel + 1) i k =
           ((k, Ev.request (ids.getD (metProbeIdx s i ids.length) 0)) ::
              (metLoop ids fetchObj s c fuel (i + 1) (k + 1)).1,
            (metLoop ids fetchObj s c fuel (i + 1) (k + 1)).2)) ∧
       (fetchObj (ids.getD (metProbeIdx s i ids.length) 0) = MetResp.parseFail →
         metLoop ids fetchObj s c (fuel + 1) i k =
           ((k, Ev.request (ids.getD (metProbeIdx s i ids.length) 0)) ::
              (metLoop ids fetchObj s c fuel (i + 1) (k + 2)).1,
            (metLoop ids fetchObj s c fuel (i + 1) (k + 2)).2))) := by
  refine ⟨?_, ?_, ?_, ?_, ?_⟩
  · intro responses rand c kk hkk hall hfail hc
    have hsplit : ATTEMPTS = (ATTEMPTS - kk) + kk := by omega
    have hpre := @aicLoop_skip_empties responses rand c kk (ATTEMPTS - kk) 0 0
      (fun j hj => by simpa using hall j hj) (by omega)
    simp only [Nat.zero_add] at hpre
    have hres : ATTEMPTS - kk = (ATTEMPTS - kk - 1) + 1 := by omega
    rcases hfail with hf | hf
    · have hstep := @aicLoop_step_netFail responses rand c (ATTEMPTS - kk - 1) kk (2 * kk)
        hf (by omega)
      rw [← hres] at hstep
      rw [hstep] at hpre
      simp only [pickRandomAIC]
      rw [hsplit, hpre]
      refine ⟨rfl, ?_, ⟨2 * kk + 1, by simp⟩⟩
      have hmap := requestCount_range_map (fun j => 2 * j) (fun j => j) kk
      rw [requestCount_cons_nonreq 0 (Ev.setLoading true) _ rfl,
        requestCount_cons_nonreq 0 (Ev.setError "") _ rfl,
        requestCount_cons_nonreq 0 Ev.setArtNull _ rfl, requestCount_append, hmap]
      simp [requestCount, List.countP_cons, Ev.isReq]
    · have hstep := @aicLoop_step_parseFail responses rand c (ATTEMPTS - kk - 1) kk (2 * kk)
        hf (by omega)
      rw [← hres] at hstep
      rw [hstep] at hpre
      simp only [pickRandomAIC]
      rw [hsplit, hpre]
      refine ⟨rfl, ?_, ⟨2 * kk + 2, by simp⟩⟩
      have hmap := requestCount_range_map (fun j => 2 * j) (fun j => j) kk
      rw [requestCount_cons_nonreq 0 (Ev.setLoading true) _ rfl,
        requestCount_cons_nonreq 0 (Ev.setError "") _ rfl,
        requestCount_cons_nonreq 0 Ev.setArtNull _ rfl, requestCount_append, hmap]
      simp [requestCount, List.countP_cons, Ev.isReq]
  · intro responses rand c kk hkk hall hfail hc
    have hsplit : ATTEMPTS = (ATTEMPTS - kk) + kk := by omega
    have hpre := @cmaLoop_skip_empties responses rand c kk (ATTEMPTS - kk) 0 0
      (fun j hj => by simpa using hall j hj) (by omega)
    simp only [Nat.zero_add] at hpre
    have hres : ATTEMPTS - kk = (ATTEMPTS - kk - 1) + 1 := by omega
    rcases hfail with hf | hf
    · have hstep := @cmaLoop_step_netFail responses rand c (ATTEMPTS - kk - 1) kk (2 * kk)
        hf (by omega)
      rw [← hres] at hstep
      rw [hstep] at hpre
      simp only [pickRandomCMA]
      rw [hsplit, hpre]
      refine ⟨rfl, ?_, ⟨2 * kk + 1, by simp⟩⟩
      have hmap := requestCount_range_map (fun j => 2 * j) (fun j => j) kk
      rw [requestCount_cons_nonreq 0 (Ev.setLoading true) _ rfl,
        requestCount_cons_nonreq 0 (Ev.setError "") _ rfl,
        requestCount_cons_nonreq 0 Ev.setArtNull _ rfl, requestCount_append, hmap]
      simp [requestCount, List.countP_cons, Ev.isReq]
    · have hstep := @cmaLoop_step_parseFail responses rand c (ATTEMPTS - kk - 1) kk (2 * kk)
        hf (by omega)
      rw [← hres] at hstep
      rw [hstep] at hpre
      simp only [pickRandomCMA]
      rw [hsplit, hpre]
      refine ⟨rfl, ?_, ⟨2 * kk + 2, by simp⟩⟩
      have hmap := requestCount_range_map (fun j => 2 * j) (fun j => j) kk
      rw [requestCount_cons_nonreq 0 (Ev.setLoading true) _ rfl,
        requestCount_cons_nonreq 0 (Ev.setError "") _ rfl,
        requestCount_cons_nonreq 0 Ev.setArtNull _ rfl, requestCount_append, hmap]
      simp [requestCount, List.countP_cons, Ev.isReq]
  · intro responses rand c fuel i k hresp hflag
    exact aicLoop_step_empty hresp hflag
  · intro responses rand c fuel i k hresp hflag
    exact cmaLoop_step_empty hresp hflag
  · intro ids fetchObj s c fuel i k hk
    exact ⟨fun hf => metLoop_step_fail hf hk, fun hf => metLoop_step_parse hf hk⟩

/-- Witness for C2: a netFail on AIC attempt 0 and a parseFail on CMA
attempt 0 each abort after one request; an empty AIC/CMA attempt 0 consumes
only itself, the loop continuing with attempt 1; the Met loop recovers from a
failed probe 0 and continues with probe 1. -/
theorem C2_witness :
    ((pickRandomAIC (fun _ => AICResp.netFail) (fun _ => 0) 1000).2 = Outcome.errored ∧
     requestCount (pickRandomAIC (fun _ => AICResp.netFail) (fun _ => 0) 1000).1 = 1) ∧
    ((pickRandomCMA (fun _ => CMAResp.parseFail) (fun _ => 0) 1000).2 = Outcome.errored ∧
     requestCount (pickRandomCMA (fun _ => CMAResp.parseFail) (fun _ => 0) 1000).1 = 1) ∧
    (aicLoop (fun _ => AICResp.ok (some []) none) (fun _ => 0) 1000 (11 + 1) 0 0 =
      ((0, Ev.request 0) ::
         (aicLoop (fun _ => AICResp.ok (some []) none) (fun _ => 0) 1000 11 1 2).1,
       (aicLoop (fun _ => AICResp.ok (some []) none) (fun _ => 0) 1000 11 1 2).2)) ∧
    (cmaLoop (fun _ => CMAResp.ok (some [])) (fun _ => 0) 1000 (11 + 1) 0 0 =
      ((0, Ev.request 0) ::
         (cmaLoop (fun _ => CMAResp.ok (some [])) (fun _ => 0) 1000 11 1 2).1,
       (cmaLoop (fun _ => CMAResp.ok (some [])) (fun _ => 0) 1000 11 1 2).2)) ∧
    (metLoop [10, 20] metRecoverFetch 0 1000 (199 + 1) 0 0 =
      ((0, Ev.request 10) :: (metLoop [10, 20] metRecoverFetch 0 1000 199 1 1).1,
       (metLoop [10, 20] metRecoverFetch 0 1000 199 1 1).2)) := by
  have h1 := C2_failure_handling_amended.1 (fun _ => AICResp.netFail) (fun _ => 0) 1000 0
    (by decide) (fun j hj => absurd hj (Nat.not_lt_zero j)) (Or.inl rfl) (by decide)
  have h2 := C2_failure_handling_amended.2.1 (fun _ => CMAResp.parseFail) (fun _ => 0) 1000 0
    (by decide) (fun j hj => absurd hj (Nat.not_lt_zero j)) (Or.inr rfl) (by decide)
  have h3 := C2_failure_handling_amended.2.2.1 (fun _ => AICResp.ok (some []) none)
    (fun _ => 0) 1000 11 0 0 (by decide) (by decide)
  have h4 := C2_failure_handling_amended.2.2.2.1 (fun _ => CMAResp.ok (some []))
    (fun _ => 0) 1000 11 0 0 (by decide) (by decide)
  have h5 := (C2_failure_handling_amended.2.2.2.2 [10, 20] metRecoverFetch 0 1000 199 0 0
    (by decide)).1 (by decide)
  exact ⟨⟨h1.1, h1.2.1⟩, ⟨h2.1, h2.2.1⟩, h3, h4, h5⟩

/-- C4 counterexample: a CMA batch on attempt 3 whose single usable candidate
has only `images.web.filename` passes the filter, but the commit-time image
chain (which omits `filename`) is empty, so `if (!imgUrl) continue` skips the
attempt (cma.tsx:120): `find()` issues all 12 requests and returns NotFound
instead of issuing exactly 3 and returning the candidate. -/
theorem C4_cma_filename_counterexample :
    cmaFilter cmaFilenameOnlyItem = true ∧
    (pickRandomCMA cmaFilenameThird (fun _ => 0) 1000).2 = Outcome.notFound ∧
    requestCount (pickRandomCMA cmaFilenameThird (fun _ => 0) 1000).1 = 12 := by
  exact ⟨by decide, by decide, by decide⟩

/-- C4 (amended): on the first attempt `kk` whose filtered batch is
non-empty, the finder picks the random-index candidate from the filtered
batch, normalizes it and returns it immediately, with exactly `kk + 1`
requests issued — as stated for the AIC screen; for the CMA screen this holds
provided the picked candidate's commit-time image chain
(`web.url`/`web.large`/`print.url`) is non-empty, a candidate passing the
filter only via `web.filename` instead causes the attempt to be skipped. -/
theorem C4_short_circuit_amended :
    (∀ responses rand c kk data iiif, kk < ATTEMPTS →
       (∀ j, j < kk → aicEmptyOk (responses j) = true) →
       responses kk = AICResp.ok data iiif →
       ((data.getD []).filter aicFilter).isEmpty = false →
       2 * ATTEMPTS < c →
       (pickRandomAIC responses rand c).2 =
         Outcome.success
           (((data.getD []).filter aicFilter).getD
             (rand kk % ((data.getD []).filter aicFilter).length) default)
           (aicNormalize iiif (((data.getD []).filter aicFilter).getD
             (rand kk % ((data.getD []).filter aicFilter).length) default)) ∧
       requestCount (pickRandomAIC responses rand c).1 = kk + 1) ∧
    (∀ responses rand c kk data, kk < ATTEMPTS →
       (∀ j, j < kk → cmaEmptyOk (responses j) = true) →
       responses kk = CMAResp.ok data →
       ((data.getD []).filter cmaFilter).isEmpty = false →
       truthy (((data.getD []).filter cmaFilter).getD
         (rand kk % ((data.getD []).filter cmaFilter).length) default).imgUrl = true →
       2 * ATTEMPTS < c →
       (pickRandomCMA responses rand c).2 =
         Outcome.success
           (((data.getD []).filter cmaFilter).getD
             (rand kk % ((data.getD []).filter cmaFilter).length) default)
           (cmaNormalize
             (((data.getD []).filter cmaFilter).getD
               (rand kk % ((data.getD []).filter cmaFilter).length) default)
             ((((data.getD []).filter cmaFilter).getD
               (rand kk % ((data.getD []).filter cmaFilter).length) default).imgUrl.getD "")) ∧
       requestCount (pickRandomCMA responses rand c).1 = kk + 1) := by
  constructor
  · intro responses rand c kk data iiif hkk hall hresp hne hc
    have hsplit : ATTEMPTS = (ATTEMPTS - kk) + kk := by omega
    have hpre := @aicLoop_skip_empties responses rand c kk (ATTEMPTS - kk) 0 0
      (fun j hj => by simpa using hall j hj) (by omega)
    simp only [Nat.zero_add] at hpre
    have hres : ATTEMPTS - kk = (ATTEMPTS - kk - 1) + 1 := by omega
    have hstep := @aicLoop_step_success responses rand c (ATTEMPTS - kk - 1) kk (2 * kk)
      data iiif hresp hne (by omega)
    rw [← hres] at hstep
    rw [hstep] at hpre
    simp only [pickRandomAIC]
    rw [hsplit, hpre]
    refine ⟨rfl, ?_⟩
    have hmap := requestCount_range_map (fun j => 2 * j) (fun j => j) kk
    rw [requestCount_cons_nonreq 0 (Ev.setLoading true) _ rfl,
      requestCount_cons_nonreq 0 (Ev.setError "") _ rfl,
      requestCount_cons_nonreq 0 Ev.setArtNull _ rfl, requestCount_append, hmap]
    simp [requestCount, List.countP_cons, Ev.isReq]
  · intro responses rand c kk data hkk hall hresp hne himg hc
    have hsplit : ATTEMPTS = (ATTEMPTS - kk) + kk := by omega
    have hpre := @cmaLoop_skip_empties responses rand c kk (ATTEMPTS - kk) 0 0
      (fun j hj => by simpa using hall j hj) (by omega)
    simp only [Nat.zero_add] at hpre
    have hres : ATTEMPTS - kk = (ATTEMPTS - kk - 1) + 1 := by omega
    have hstep := @cmaLoop_step_success responses rand c (ATTEMPTS - kk - 1) kk (2 * kk)
      data hresp hne himg (by omega)
    rw [← hres] at hstep
    rw [hstep] at hpre
    simp only [pickRandomCMA]
    rw [hsplit, hpre]
    refine ⟨rfl, ?_⟩
    have hmap := requestCount_range_map (fun j => 2 * j) (fun j => j) kk
    rw [requestCount_cons_nonreq 0 (Ev.setLoading true) _ rfl,
      requestCount_cons_nonreq 0 (Ev.setError "") _ rfl,
      requestCount_cons_nonreq 0 Ev.setArtNull _ rfl, requestCount_append, hmap]
    simp [requestCount, List.countP_cons, Ev.isReq]

/-- Witness for C4: one usable candidate delivered on attempt 3 of 12 — the
finder issues exactly 3 requests and returns it normalized (AIC, and CMA with
a resolvable web image). -/
theorem C4_witness :
    ((pickRandomAIC aicThirdAttempt (fun _ => 0) 1000).2 =
       Outcome.success aicGoodItem (aicNormalize none aicGoodItem) ∧
     requestCount (pickRandomAIC aicThirdAttempt (fun _ => 0) 1000).1 = 3) ∧
    ((pickRandomCMA cmaThirdAttempt (fun _ => 0) 1000).2 =
       Outcome.success cmaGoodItem
         (cmaNormalize cmaGoodItem "https://example.org/good.jpg") ∧
     requestCount (pickRandomCMA cmaThirdAttempt (fun _ => 0) 1000).1 = 3) := by
  have h1 := C4_short_circuit_amended.1 aicThirdAttempt (fun _ => 0) 1000 2
    (some [aicGoodItem]) none (by decide)
    (fun j hj => by
      have hj2 : j = 0 ∨ j = 1 := by omega
      rcases hj2 with h | h <;> subst h <;> decide)
    (by decide) (by decide) (by decide)
  have h2 := C4_short_circuit_amended.2 cmaThirdAttempt (fun _ => 0) 1000 2
    (some [cmaGoodItem]) (by decide)
    (fun j hj => by
      have hj2 : j = 0 ∨ j = 1 := by omega
      rcases hj2 with h | h <;> subst h <;> decide)
    (by decide) (by decide) (by decide) (by decide)
  exact ⟨⟨h1.1.trans (by decide), h1.2⟩, ⟨h2.1.trans (by decide), h2.2⟩⟩

/-- C8: starting from an empty store, the first loader run performs the one
bulk fetch of the objects endpoint and writes the parsed list to the store;
a second sequential run (whatever its transport would answer) reads the
cached list and performs no bulk fetch. -/
theorem C8_single_bulk_fetch (data : Option (List Nat)) (bulk2 : BulkResp) (c1 c2 : Nat) :
    bulkFetches (metLoadIds none (BulkResp.ok data) c1).1 = 1 ∧
    (metLoadIds none (BulkResp.ok data) c1).2 = some (data.getD []) ∧
    bulkFetches (metLoadIds (metLoadIds none (BulkResp.ok data) c1).2 bulk2 c2).1 = 0 ∧
    (metLoadIds (metLoadIds none (BulkResp.ok data) c1).2 bulk2 c2).2 =
      some (data.getD []) := by
  refine ⟨?_, rfl, ?_, rfl⟩
  · cases h4 : flagAt c1 4 <;>
      simp [metLoadIds, bulkFetches, List.countP_append, List.countP_cons, LEv.isBulk, h4]
  · cases h1 : flagAt c2 1 <;>
      simp [metLoadIds, bulkFetches, List.countP_append, List.countP_cons, LEv.isBulk, h1]

/-- C9: the save path never mutates the `art`/`error`/`loading` state, and a
persistence failure (download failure, or library-save failure) surfaces
exactly as the distinct "Save failed" alert. -/
theorem C9_save_failure_frame :
    (∀ tag art env, (saveCurrentImage tag art env).filter Ev.isMut = []) ∧
    (∀ tag a env, a.img ≠ "" → env.download (forceHttps a.img) = SaveResp.dlFail →
       saveCurrentImage tag (some a) env =
         [Ev.download (forceHttps a.img), Ev.alert "Save failed" saveFailMsg]) ∧
    (∀ tag a env uri, a.img ≠ "" → env.download (forceHttps a.img) = SaveResp.dlOk uri →
       env.web = false → env.permission = true → env.saveOk = false →
       saveCurrentImage tag (some a) env =
         [Ev.download (forceHttps a.img), Ev.permissionRequest, Ev.saveToLibrary uri,
          Ev.alert "Save failed" saveFailMsg]) := by
  refine ⟨?_, ?_, ?_⟩
  · intro tag art env
    cases art with
    | none => simp [saveCurrentImage]
    | some a =>
      cases himg : a.img == "" with
      | true => simp [saveCurrentImage, himg]
      | false =>
        cases hdl : env.download (forceHttps a.img) with
        | dlFail => simp [saveCurrentImage, himg, hdl, Ev.isMut]
        | dlOk uri =>
          cases hweb : env.web with
          | true => simp [saveCurrentImage, himg, hdl, hweb, Ev.isMut]
          | false =>
            cases hperm : env.permission with
            | true =>
              cases hsave : env.saveOk with
              | true => simp [saveCurrentImage, himg, hdl, hweb, hperm, hsave, Ev.isMut]
              | false => simp [saveCurrentImage, himg, hdl, hweb, hperm, hsave, Ev.isMut]
            | false => simp [saveCurrentImage, himg, hdl, hweb, hperm, Ev.isMut]
  · intro tag a env himg hdl
    have hbeq : (a.img == "") = false := by
      simp [himg]
    simp [saveCurrentImage, hbeq, hdl]
  · intro tag a env uri himg hdl hweb hperm hsave
    have hbeq : (a.img == "") = false := by
      simp [himg]
    simp [saveCurrentImage, hbeq, hdl, hweb, hperm, hsave]

/-- Witness for C9: a failing download and a failing library save each yield
only the "Save failed" alert with no state mutation. -/
theorem C9_witness :
    (saveCurrentImage "met-" (some httpArtwork) dlFailEnv).filter Ev.isMut = [] ∧
    saveCurrentImage "met-" (some httpArtwork) dlFailEnv =
      [Ev.download (forceHttps httpArtwork.img), Ev.alert "Save failed" saveFailMsg] ∧
    saveCurrentImage "cma-" (some httpArtwork) saveFailEnv =
      [Ev.download (forceHttps httpArtwork.img), Ev.permissionRequest,
       Ev.saveToLibrary "file:///cache/pic.jpg", Ev.alert "Save failed" saveFailMsg] :=
  ⟨C9_save_failure_frame.1 "met-" (some httpArtwork) dlFailEnv,
   C9_save_failure_frame.2.1 "met-" httpArtwork dlFailEnv (by decide) rfl,
   C9_save_failure_frame.2.2 "cma-" httpArtwork saveFailEnv "file:///cache/pic.jpg"
     (by decide) rfl rfl rfl rfl⟩

/-- C10: with no displayed artwork (or an empty image URL) the save path does
nothing; otherwise the first effect is the download of the artwork's image
URL with a leading `http:` scheme rewritten to `https:` — a URL already
starting with `https:` passes through unchanged. -/
theorem C10_download_url :
    (∀ tag env, saveCurrentImage tag none env = []) ∧
    (∀ tag a env, a.img = "" → saveCurrentImage tag (some a) env = []) ∧
    (∀ tag a env, a.img ≠ "" →
       (saveCurrentImage tag (some a) env).head? =
         some (Ev.download (forceHttps a.img))) ∧
    (∀ rest, forceHttps (String.mk ('h' :: 't' :: 't' :: 'p' :: ':' :: rest)) =
       String.mk ('h' :: 't' :: 't' :: 'p' :: 's' :: ':' :: rest)) ∧
    (∀ rest, forceHttps (String.mk ('h' :: 't' :: 't' :: 'p' :: 's' :: ':' :: rest)) =
       String.mk ('h' :: 't' :: 't' :: 'p' :: 's' :: ':' :: rest)) := by
  refine ⟨?_, ?_, ?_, ?_, ?_⟩
  · intro tag env
    rfl
  · intro tag a env himg
    have hbeq : (a.img == "") = true := by
      simp [himg]
    simp [saveCurrentImage, hbeq]
  · intro tag a env himg
    have hbeq : (a.img == "") = false := by
      simp [himg]
    simp [saveCurrentImage, hbeq]
  · intro rest
    rfl
  · intro rest
    rfl

/-- Witness for C10 on a concrete `http:` artwork and concrete strings. -/
theorem C10_witness :
    (saveCurrentImage "aic-" (some httpArtwork) dlFailEnv).head? =
      some (Ev.download (forceHttps httpArtwork.img)) ∧
    forceHttps "http://img.example.org/pic.jpg" = "https://img.example.org/pic.jpg" ∧
    forceHttps "https://img.example.org/pic.jpg" = "https://img.example.org/pic.jpg" :=
  ⟨C10_download_url.2.2.1 "aic-" httpArtwork dlFailEnv (by decide),
   C10_download_url.2.2.2.1 "//img.example.org/pic.jpg".data,
   C10_download_url.2.2.2.2 "//img.example.org/pic.jpg".data⟩
